import Mathlib

/-!
# Plexist core — shallow embedding and verification

This file embeds, in Lean 4, the track-matching and caching core of the
Plexist repository (`plexist/modules/plex.py` and
`plexist/modules/musicbrainz.py`) and proves or refutes the specification
claims about it.

Modelling conventions:
* Python `set` values are modelled as Lean `List`s with explicit
  set-insertion semantics where the source relies on them (`pySetAdd`);
  the empty set is `[]` in every representation, so emptiness claims are
  representation-independent.
* SQLite tables are lists of row structures; `INSERT OR REPLACE` removes
  the row with the matching primary key and appends the new row.
* `datetime` values are integers (`Int`) counting days; a `timedelta` of
  `d` days is the integer `d`, and `now - timedelta(days=ttl)` is `now - ttl`.
* External effects (the Plex server, the MusicBrainz HTTP API, the
  `SequenceMatcher.ratio` similarity score) are oracles passed in as
  function arguments; claims quantify over them.
* `async` functions are embedded as pure state-passing functions; the
  cooperative event loop interleaves whole awaited operations, and the
  claims treated here are about per-call results and final states, so a
  sequential embedding is faithful for them.
-/

namespace Plexist

/-! ## Python-level string helpers

All character-level operations are written as structural recursion over
`String.data` so that every definition evaluates inside the kernel
(`decide`/`rfl`).  Python's `str.upper`/`str.lower`/`str.casefold` are
modelled per-character (the inputs these functions receive — ISRCs, MBIDs,
track metadata — are treated at the character level, where this matches
CPython's behaviour for the ASCII range). -/

/-- Python `s.lower()`. -/
def lowerStr (s : String) : String :=
  String.mk (s.data.map Char.toLower)

/-- Python `s.upper().replace("-", "")` used to normalize an ISRC
(`musicbrainz.py`, e.g. line 448): uppercase then delete hyphens. -/
def pyNormIsrc (s : String) : String :=
  String.mk ((s.data.map Char.toUpper).filter (fun c => c ≠ '-'))

/-- Characters stripped by Python `str.strip("{} ")` in `_normalize_mbid`. -/
def mbidStripChars : List Char := ['\x7b', '\x7d', ' ']

/-- Strip the given characters from both ends of a character list
(Python `str.strip(chars)`). -/
def pyStripChars (cs : List Char) (l : List Char) : List Char :=
  ((l.dropWhile (cs.contains ·)).reverse.dropWhile (cs.contains ·)).reverse

/-- Embedding of `musicbrainz._normalize_mbid` / `plex._normalize_mbid`: strip
whitespace, lowercase, drop a leading `mbid://` scheme, strip braces and
spaces; empty results become `None`. -/
def pyNormMbid (mbid : Option String) : Option String :=
  match mbid with
  | none => none
  | some s =>
    if s = "" then none
    else
      let t := pyStripChars [' ', '\t', '\n', '\r'] s.data
      let t := t.map Char.toLower
      let t := if ("mbid://".data).isPrefixOf t then t.drop 7 else t
      let t := pyStripChars mbidStripChars t
      if t = [] then none else some (String.mk t)

/-- Python `set.add` for strings: adding a member already present is a
no-op; we represent a set by its members in first-insertion order. -/
def insertStr (s : List String) (m : String) : List String :=
  if m ∈ s then s else s ++ [m]

/-- Embedding of `musicbrainz._normalize_mbids`: normalize each element, drop failures,
deduplicate (the source builds a Python `set`). -/
def pyNormMbids (mbids : List String) : List String :=
  (mbids.filterMap (fun m => pyNormMbid (some m))).foldl insertStr []

/-! ## ISRC→MBID cache (`isrc_mbid_cache` table) -/

/-- One row of the `isrc_mbid_cache` SQLite table:
`(isrc, mbid, is_negative, cached_at)`, primary key `(isrc, mbid)`. -/
structure CacheRow where
  isrc : String
  mbid : String
  isNeg : Bool
  cachedAt : Int
  deriving DecidableEq, Repr

/-- The rows the SQL query `SELECT ... WHERE isrc = ?` returns, in table
order. -/
def rowsFor (db : List CacheRow) (isrc : String) : List CacheRow :=
  db.filter (fun r => r.isrc = isrc)

/-- Embedding of `INSERT OR REPLACE INTO isrc_mbid_cache`: drop any row with the same
`(isrc, mbid)` primary key, then append the new row. -/
def upsertRow (db : List CacheRow) (row : CacheRow) : List CacheRow :=
  (db.filter (fun r => ¬(r.isrc = row.isrc ∧ r.mbid = row.mbid))) ++ [row]

/-- Embedding of `musicbrainz.get_cached_mbids` (lines 180–228).  `posTTL`/`negTTL` are
`MUSICBRAINZ_CACHE_TTL_DAYS` / `MUSICBRAINZ_NEGATIVE_CACHE_TTL_DAYS`;
`now` is `datetime.now(timezone.utc)`.  Returns `none` for a miss, and the
list of valid MBIDs (empty for a valid negative hit) otherwise.  The first
loop of the source returns as soon as it sees a negative row — valid
negative rows yield the empty set, expired ones yield `None` — which is
`List.find?` on `isNeg`. -/
def getCachedMbids (posTTL negTTL now : Int) (db : List CacheRow) (isrc : String) :
    Option (List String) :=
  let posCutoff := now - posTTL
  let negCutoff := now - negTTL
  let rows := rowsFor db isrc
  if rows = [] then none
  else
    match rows.find? (fun r => r.isNeg) with
    | some r => if negCutoff ≤ r.cachedAt then some [] else none
    | none =>
      let validMbids :=
        (rows.filter (fun r => ¬r.isNeg ∧ posCutoff ≤ r.cachedAt)).foldl
          (fun acc r => insertStr acc r.mbid) []
      if validMbids = [] then none else some validMbids

/-- Embedding of `musicbrainz.save_mbids_to_cache` (lines 231–261): an empty (normalized)
result stores one negative row; a non-empty result first deletes negative
rows for the ISRC and then upserts one positive row per MBID. -/
def saveMbidsToCache (now : Int) (db : List CacheRow) (isrc : String)
    (mbids : List String) : List CacheRow :=
  let normalized := pyNormMbids mbids
  if normalized = [] then
    upsertRow db { isrc := isrc, mbid := "", isNeg := true, cachedAt := now }
  else
    let db := db.filter (fun r => ¬(r.isrc = isrc ∧ r.isNeg))
    normalized.foldl
      (fun acc m => upsertRow acc { isrc := isrc, mbid := m, isNeg := false, cachedAt := now })
      db

/-! ## MusicBrainz API query (`query_musicbrainz_api_with_scores`) -/

/-- Embedding of `MBIDType` enum with its confidence table (`MBID_CONFIDENCE_SCORES`). -/
inductive MBIDType where
  | recording
  | releaseTrack
  | release
  | unknown
  deriving DecidableEq, Repr

def confidenceScore : MBIDType → ℚ
  | MBIDType.recording => 1
  | MBIDType.releaseTrack => 19/20
  | MBIDType.release => 7/10
  | MBIDType.unknown => 1/2

/-- The `ScoredMBID` dataclass. -/
structure ScoredMBID where
  mbid : String
  mbidType : MBIDType
  confidence : ℚ
  deriving DecidableEq, Repr

/-- Embedding of `ScoredMBID.__eq__`: equality is by `mbid` alone. -/
def scoredEq (a b : ScoredMBID) : Bool :=
  a.mbid = b.mbid

/-- Python `set.add` under `ScoredMBID.__eq__`/`__hash__`: adding an element
whose `mbid` is already present is a no-op (the stored element is kept). -/
def pySetAdd (s : List ScoredMBID) (x : ScoredMBID) : List ScoredMBID :=
  if s.any (fun y => scoredEq y x) then s else s ++ [x]

/-- The `releases → media → tracks` slice of one MusicBrainz recording in
the JSON response: the release id and, per medium, the track ids. -/
structure MBRelease where
  id : Option String
  media : List (List (Option String))
  deriving Repr

/-- One element of `data["recordings"]`. -/
structure MBRecording where
  id : Option String
  releases : List MBRelease
  deriving Repr

/-- The sequence of `scored_mbids.add(...)` calls performed by the parse
loop of `query_musicbrainz_api_with_scores` (lines 326–362), in source
order: per recording the recording id, then per release the release id
followed by the track ids of its media.  `if recording_id:` truthiness and
the `_normalize_mbid` guard are both reflected by `filterMap`. -/
def parseInsertions (recs : List MBRecording) : List ScoredMBID :=
  recs.foldl
    (fun acc rec =>
      let accRec :=
        match pyNormMbid (match rec.id with | some "" => none | x => x) with
        | some n =>
          acc ++ [{ mbid := n, mbidType := MBIDType.recording,
                    confidence := confidenceScore MBIDType.recording }]
        | none => acc
      rec.releases.foldl
        (fun acc rel =>
          let accRel :=
            match pyNormMbid (match rel.id with | some "" => none | x => x) with
            | some n =>
              acc ++ [{ mbid := n, mbidType := MBIDType.release,
                        confidence := confidenceScore MBIDType.release }]
            | none => acc
          rel.media.foldl
            (fun acc medium =>
              medium.foldl
                (fun acc tid =>
                  match pyNormMbid (match tid with | some "" => none | x => x) with
                  | some n =>
                    acc ++ [{ mbid := n, mbidType := MBIDType.releaseTrack,
                              confidence := confidenceScore MBIDType.releaseTrack }]
                  | none => acc)
                acc)
            accRel)
        accRec)
    []

/-- The `scored_mbids` set built by the parse loop: the insertion sequence
folded through Python-set insertion. -/
def parseScoredMbids (recs : List MBRecording) : List ScoredMBID :=
  (parseInsertions recs).foldl pySetAdd []

/-- Outcome of the HTTP exchange inside `query_musicbrainz_api_with_scores`
for one ISRC: a 200 body, a 404, a 503 followed by a retry (`some` body on
a 200 retry, `none` otherwise), any other status (`raise_for_status`), a
timeout, or a network error. -/
inductive HttpOutcome where
  | ok (recs : List MBRecording)
  | notFound
  | busyThenRetry (retry : Option (List MBRecording))
  | otherStatus
  | timeout
  | netError

/-- Embedding of `musicbrainz.query_musicbrainz_api_with_scores` (lines 281–380) as a
function of the HTTP outcome.  `raise_for_status` on any other non-200
raises `aiohttp.ClientError`, and timeouts / network errors raise too; all
three are caught by the `except` clauses and return the empty set. -/
def queryMusicbrainzApiWithScores (resp : HttpOutcome) : List ScoredMBID :=
  match resp with
  | HttpOutcome.ok recs => parseScoredMbids recs
  | HttpOutcome.notFound => []
  | HttpOutcome.busyThenRetry (some recs) => parseScoredMbids recs
  | HttpOutcome.busyThenRetry none => []
  | HttpOutcome.otherStatus => []
  | HttpOutcome.timeout => []
  | HttpOutcome.netError => []

/-- Embedding of `musicbrainz.query_musicbrainz_api`: the plain MBIDs of the scored
result. -/
def queryMusicbrainzApi (resp : HttpOutcome) : List String :=
  (queryMusicbrainzApiWithScores resp).map (fun sm => sm.mbid)

/-- Embedding of `musicbrainz.get_mbids_for_isrc` (lines 429–464), state-passing over the
cache table.  `api` is the HTTP oracle (outcome of querying a given
normalized ISRC).  Returns the MBID set, the new table, and the number of
external MusicBrainz queries issued by this call. -/
def getMbidsForIsrc (api : String → HttpOutcome) (posTTL negTTL now : Int)
    (db : List CacheRow) (isrc : String) : List String × List CacheRow × Nat :=
  if isrc = "" then ([], db, 0)
  else
    let n := pyNormIsrc isrc
    match getCachedMbids posTTL negTTL now db n with
    | some cached => (cached, db, 0)
    | none =>
      let mbids := pyNormMbids (queryMusicbrainzApi (api n))
      (mbids, saveMbidsToCache now db n mbids, 1)

/-! ## Batch cache lookup (`get_cached_mbids_batch`) -/

/-- The per-ISRC scan of `get_cached_mbids_batch` (lines 643–653): one pass
over the rows accumulating `valid_mbids`, `has_valid_negative` and
`all_expired`, in source order. -/
def batchStep (posCutoff negCutoff : Int) (acc : List String × Bool × Bool)
    (r : CacheRow) : List String × Bool × Bool :=
  let (validMbids, hasValidNeg, allExpired) := acc
  if r.isNeg then
    if negCutoff ≤ r.cachedAt then (validMbids, true, false)
    else (validMbids, hasValidNeg, allExpired)
  else
    if posCutoff ≤ r.cachedAt then
      (insertStr validMbids r.mbid, hasValidNeg, false)
    else (validMbids, hasValidNeg, allExpired)

def batchScan (posCutoff negCutoff : Int) (rows : List CacheRow) :
    List String × Bool × Bool :=
  rows.foldl (batchStep posCutoff negCutoff) ([], false, true)

/-- The decision `get_cached_mbids_batch` takes for one ISRC that has rows
in the table (lines 655–662). -/
def batchDecide (posCutoff negCutoff : Int) (rows : List CacheRow) :
    Option (List String) :=
  let scan := batchScan posCutoff negCutoff rows
  let validMbids := scan.1
  let hasValidNeg := scan.2.1
  if hasValidNeg ∧ validMbids = [] then some []
  else if validMbids ≠ [] then some validMbids
  else none

/-- Embedding of `musicbrainz.get_cached_mbids_batch` (lines 595–664) restricted to the
result for one requested ISRC: normalize, collect the table rows for the
normalized ISRC, and decide.  (The source issues one `IN (...)` query and
groups rows by ISRC; for a fixed ISRC the grouped rows are exactly
`rowsFor` in table order.) -/
def getCachedMbidsBatchSingle (posTTL negTTL now : Int) (db : List CacheRow)
    (isrc : String) : Option (List String) :=
  let n := pyNormIsrc isrc
  let rows := rowsFor db n
  if rows = [] then none
  else batchDecide (now - posTTL) (now - negTTL) rows

/-! ## Plex track cache and match engine (`plex.py`) -/

/-- The canonical `Track` dataclass (`helperClasses.py`). -/
structure Track where
  title : String
  artist : String
  album : String
  url : String
  year : String
  genre : String
  isrc : Option String := none
  durationMs : Option Int := none
  deriving DecidableEq, Repr

/-- A `plexapi.audio.Track` as consumed by the matcher: `ratingKey`,
`title`, `artist().title`, `album().title`, `year`, `genres` (tags) and
`duration` (milliseconds). -/
structure Item where
  ratingKey : Nat
  title : String
  artistName : String
  albumName : String
  year : Option Int := none
  genres : List String := []
  duration : Option Int := none
  deriving DecidableEq, Repr

/-- Python truthiness of an `Optional[str]`: `None` and `""` are falsy. -/
def pyTruthyStr : Option String → Bool
  | none => false
  | some s => s ≠ ""

/-- The wrapped string of a truthy `Optional[str]`. -/
def optStr (s : Option String) : String := s.getD ""

/-- Python `str.split()` (split on whitespace runs, dropping empties),
as an accumulator-structural recursion over characters. -/
def pyWordsAux : List Char → List Char → List (List Char)
  | [], cur => if cur = [] then [] else [cur.reverse]
  | c :: cs, cur =>
    if c.isWhitespace then
      if cur = [] then pyWordsAux cs []
      else cur.reverse :: pyWordsAux cs []
    else pyWordsAux cs (c :: cur)

/-- Embedding of `plex._normalize_text` (lines 86–94): Unicode-decompose and strip
combining marks (the identity at the character level modelled here),
casefold, replace non-word non-space characters by spaces, collapse
whitespace runs, and trim.  `re.sub(r"\s+", " ", s).strip()` equals
`" ".join(s.split())`. -/
def normalizeText (value : String) : String :=
  if value = "" then ""
  else
    let cs := value.data.map Char.toLower
    let cs := cs.map (fun c => if c.isAlphanum ∨ c = '_' ∨ c.isWhitespace then c else ' ')
    String.mk (List.intercalate [' '] (pyWordsAux cs []))

/-- Embedding of `plex._build_lookup_keys` (lines 97–103). -/
def buildLookupKeys (title artist album : String) :
    String × String × String × String × String :=
  let titleNorm := normalizeText title
  let artistNorm := normalizeText artist
  let albumNorm := normalizeText album
  (titleNorm, artistNorm, albumNorm,
    titleNorm ++ "|" ++ artistNorm ++ "|" ++ albumNorm,
    titleNorm ++ "|" ++ artistNorm)

/-- Embedding of `plex._get_duration_bucket` (lines 106–111); Python `//` is floor
division (`Int.fdiv`). -/
def getDurationBucket (bucketSeconds : Int) (durationMs : Option Int) : Option Int :=
  match durationMs with
  | none => none
  | some d => if bucketSeconds ≤ 0 then none else some (Int.fdiv d (bucketSeconds * 1000))

/-- Dictionary lookup in an association-list model of a Python dict
(assignment is modelled by `aupsert`, so keys are unique and `find?`
retrieves the entry). -/
def alookup {κ β : Type} [DecidableEq κ] (m : List (κ × β)) (k : κ) : Option β :=
  (m.find? (fun p => p.1 = k)).map (fun p => p.2)

/-- Python dict assignment `d[k] = v`. -/
def aupsert {κ β : Type} [DecidableEq κ] (m : List (κ × β)) (k : κ) (v : β) :
    List (κ × β) :=
  (m.filter (fun p => ¬p.1 = k)) ++ [(k, v)]

/-- Python `d.setdefault(k, []).append(v)`. -/
def aappend {κ β : Type} [DecidableEq κ] (m : List (κ × List β)) (k : κ) (v : β) :
    List (κ × List β) :=
  if m.any (fun p => p.1 = k) then
    m.map (fun p => if p.1 = k then (p.1, p.2 ++ [v]) else p)
  else m ++ [(k, [v])]

/-- Python `d.setdefault(k, {}).setdefault(b, []).append(v)` for the
partial-key → duration-bucket → tracks index. -/
def aappend2 (m : List (String × List (Int × List Item))) (k : String) (b : Int)
    (v : Item) : List (String × List (Int × List Item)) :=
  if m.any (fun p => p.1 = k) then
    m.map (fun p => if p.1 = k then (p.1, aappend p.2 b v) else p)
  else m ++ [(k, [(b, [v])])]

/-- One entry of the in-memory `plex_mbid_index`:
`{"plex_id": ..., "track_key": ..., "track": ...}` where `track` may be a
not-yet-fetched `None`. -/
structure MbidEntry where
  plexId : Option Nat
  trackKey : String
  track : Option Item
  deriving DecidableEq, Repr

/-- The module-level mutable cache state of `plex.py` (lines 45–66)
together with the persisted `plex_cache` table rows (modelled by their
primary keys; `clear_cache` deletes all of them and nothing in the claims
below depends on the other columns). -/
structure CacheState where
  tracksCache : List (String × Item)
  tracksCacheIndex : List (String × Item)
  lookupFull : List (String × Item)
  lookupPartial : List (String × List Item)
  partialDurationIndex : List (String × List (Int × List Item))
  artistIndex : List (String × List Item)
  durationIndex : List (Int × List Item)
  mbidIndex : List (String × MbidEntry)
  dbRows : List String
  deriving DecidableEq, Repr

/-- The raw cache key `f"{track.title}|{track.artist().title}|{track.album().title}"`. -/
def rawKey (it : Item) : String :=
  it.title ++ "|" ++ it.artistName ++ "|" ++ it.albumName

/-- The lowercase key used by `_rebuild_cache_index` (line 82). -/
def lowerKey (it : Item) : String :=
  lowerStr it.title ++ "|" ++ lowerStr it.artistName ++ "|" ++ lowerStr it.albumName

/-- Embedding of `plex._rebuild_cache_index` (lines 77–83). -/
def rebuildCacheIndex (s : CacheState) : CacheState :=
  { s with tracksCacheIndex :=
      (s.tracksCache.map (fun p => p.2)).foldl (fun idx t => aupsert idx (lowerKey t) t) [] }

/-- The per-track body of `plex._rebuild_extended_indexes` (lines 124–144). -/
def addTrackExtended (bucketSeconds : Int) (s : CacheState) (t : Item) : CacheState :=
  let keys := buildLookupKeys t.title t.artistName t.albumName
  let artistNorm := keys.2.1
  let lookupKeyFull := keys.2.2.2.1
  let lookupKeyPartial := keys.2.2.2.2
  let s := { s with lookupFull := aupsert s.lookupFull lookupKeyFull t }
  let s := { s with lookupPartial := aappend s.lookupPartial lookupKeyPartial t }
  let s := if artistNorm ≠ "" then
      { s with artistIndex := aappend s.artistIndex artistNorm t }
    else s
  match getDurationBucket bucketSeconds t.duration with
  | none => s
  | some bucket =>
    { s with
      durationIndex := aappend s.durationIndex bucket t,
      partialDurationIndex := aappend2 s.partialDurationIndex lookupKeyPartial bucket t }

/-- Embedding of `plex._rebuild_extended_indexes` (lines 114–144). -/
def rebuildExtendedIndexes (bucketSeconds : Int) (s : CacheState) : CacheState :=
  (s.tracksCache.map (fun p => p.2)).foldl (addTrackExtended bucketSeconds)
    { s with lookupFull := [], lookupPartial := [], partialDurationIndex := [],
             artistIndex := [], durationIndex := [] }

/-- Embedding of `plex.clear_cache` (lines 1012–1021): clears the raw
`plex_tracks_cache` dict and issues `DELETE FROM plex_cache`; no other
in-memory structure is touched. -/
def clearCache (s : CacheState) : CacheState :=
  { s with tracksCache := [], dbRows := [] }

/-! ## Match engine (`_match_single_track`, lines 492–731) -/

/-- The configuration flags read by the matcher: `extended_cache_enabled`,
`musicbrainz_enabled`, `duration_bucket_seconds`, `DURATION_TOLERANCE_MS`. -/
structure MatchConfig where
  extendedCacheEnabled : Bool
  musicbrainzEnabled : Bool
  durationBucketSeconds : Int
  durationToleranceMs : Int

/-- External effects of the matcher as oracles.  An `Option` result with
`none` models the call raising (the surrounding `try`/`except` then falls
through): `isrcSearch` is `plex.library.search(track.guid="isrc://...")`,
`resolveIsrc` is `musicbrainz.get_mbids_for_isrc` (a Python set, listed in
iteration order), `fetchItem` is `plex.fetchItem`, `guidSearch` is the
`track.guid="mbid://..."` search, `plexSearch` is the live
`plex.search(query, mediatype="track", limit=20)` (`none` = `BadRequest`),
and `ratio` is `difflib.SequenceMatcher(None, ·, ·).ratio()`. -/
structure PlexOracles where
  isrcSearch : String → Option (List Item)
  resolveIsrc : String → List String
  fetchItem : Nat → Option Item
  guidSearch : String → Option (List Item)
  plexSearch : String → Option (List Item)
  ratio : String → String → ℚ

/-- The local `similarity(a, b)` helper (line 493): the ratio of the
lowercased strings. -/
def similarity (o : PlexOracles) (a b : String) : ℚ :=
  o.ratio (lowerStr a) (lowerStr b)

/-- Python `title.split("(")[1].split(")")[0]`: the text after the first
`(` up to the next `(` (second split field), truncated at the first `)`. -/
def pyVersionPart (s : String) : String :=
  String.mk ((((s.data.dropWhile (fun c => c ≠ '(')).drop 1).takeWhile
    (fun c => c ≠ '(')).takeWhile (fun c => c ≠ ')'))

/-- The weighted score one candidate receives in `search_and_score`
(lines 608–627 and 640–659): title ×0.4, artist ×0.3, album ×0.2,
parenthetical version ×0.1, +0.1 on exact year match, +0.1 on a genre
token with similarity > 0.8.  `int(track.year)` is modelled by
`String.toInt?` (provider adapters emit empty or numeric year strings). -/
def scoreItem (o : PlexOracles) (track : Track) (s : Item) : ℚ :=
  let score := similarity o s.title track.title * (4/10)
    + similarity o s.artistName track.artist * (3/10)
    + similarity o s.albumName track.album * (2/10)
  let score :=
    if track.title.data.contains '(' ∧ s.title.data.contains '(' then
      score + similarity o (pyVersionPart track.title) (pyVersionPart s.title) * (1/10)
    else score
  let score :=
    match s.year with
    | some y =>
      if track.year ≠ "" ∧ y ≠ 0 then
        (if track.year.toInt? = some y then score + 1/10 else score)
      else score
    | none => score
  let score :=
    if track.genre ≠ "" ∧ s.genres ≠ [] then
      (if s.genres.any (fun g => similarity o g track.genre > 4/5) then score + 1/10
       else score)
    else score
  score

/-- The `if score > best_score` accumulation over a candidate list. -/
def bestByScore (o : PlexOracles) (track : Track) (init : Option Item × ℚ)
    (cands : List Item) : Option Item × ℚ :=
  cands.foldl
    (fun best s =>
      let sc := scoreItem o track s
      if sc > best.2 then (some s, sc) else best)
    init

/-- Embedding of `search_and_score(query, threshold)` (lines 588–667): score the cache
candidates (pre-filtered by an exact lowercase artist/title/album match,
else capped to the first `MAX_SEARCH_CANDIDATES = 500`), fall back to a
live Plex search when below threshold, and return the best match if it
reaches the threshold. -/
def searchAndScore (o : PlexOracles) (c : CacheState) (track : Track)
    (query : String) (threshold : ℚ) : Option Item × ℚ :=
  let cacheVals := c.tracksCache.map (fun p => p.2)
  let filtered := cacheVals.filter (fun s =>
    lowerStr s.artistName = lowerStr track.artist ∨
    lowerStr s.title = lowerStr track.title ∨
    lowerStr s.albumName = lowerStr track.album)
  let candidates := if filtered.isEmpty then cacheVals.take 500 else filtered
  let best := bestByScore o track (none, 0) candidates
  let best :=
    if best.2 < threshold then
      match o.plexSearch query with
      | none => best
      | some results => bestByScore o track best results
    else best
  if threshold ≤ best.2 then best else (none, 0)

/-- The MBID-index loop of `_match_via_mbid_proxy` (lines 756–794):
first index hit wins; an entry with an in-memory track returns it, an
entry with only a `plex_id` fetches it (a failed fetch falls through to
the next candidate). -/
def proxyIndexLoop (o : PlexOracles) (idx : List (String × MbidEntry)) :
    List String → Option Item
  | [] => none
  | mbid :: rest =>
    match pyNormMbid (some mbid) with
    | none => proxyIndexLoop o idx rest
    | some n =>
      match alookup idx n with
      | none => proxyIndexLoop o idx rest
      | some entry =>
        match entry.track with
        | some t => some t
        | none =>
          match entry.plexId with
          | none => proxyIndexLoop o idx rest
          | some pid =>
            match o.fetchItem pid with
            | some t => some t
            | none => proxyIndexLoop o idx rest

/-- The GUID-search fallback loop of `_match_via_mbid_proxy`
(lines 797–816). -/
def proxyGuidLoop (o : PlexOracles) : List String → Option Item
  | [] => none
  | mbid :: rest =>
    match pyNormMbid (some mbid) with
    | none => proxyGuidLoop o rest
    | some n =>
      match o.guidSearch n with
      | some (r :: _) => some r
      | _ => proxyGuidLoop o rest

/-- Embedding of `plex._match_via_mbid_proxy` (lines 734–818).  The in-place update of
the MBID index by a successful fetch does not affect the returned match
and is elided. -/
def matchViaMbidProxy (o : PlexOracles) (c : CacheState) (track : Track) :
    Option Item :=
  if pyTruthyStr track.isrc = false then none
  else
    let cands := o.resolveIsrc (optStr track.isrc)
    if cands = [] then none
    else
      match proxyIndexLoop o c.mbidIndex cands with
      | some t => some t
      | none => proxyGuidLoop o cands

/-- Stage 0 of `_match_single_track`: the direct ISRC guid search
(lines 497–515); an exception or an empty result falls through. -/
def stageIsrc (o : PlexOracles) (track : Track) : Option Item :=
  if pyTruthyStr track.isrc then
    match o.isrcSearch (optStr track.isrc) with
    | some (r :: _) => some r
    | _ => none
  else none

/-- Stage 0.5: the MBID proxy (lines 519–525). -/
def stageMbidProxy (cfg : MatchConfig) (o : PlexOracles) (c : CacheState)
    (track : Track) : Option Item :=
  if pyTruthyStr track.isrc ∧ cfg.musicbrainzEnabled then
    matchViaMbidProxy o c track
  else none

/-- Stages 1, 1.5 and 2 under `extended_cache_enabled` (lines 528–586):
normalized full-key exact hit, duration-aware partial match
(bucket ±1 neighbours, duration tolerance, title similarity ≥ 0.85), and
artist-index best title similarity ≥ 0.88. -/
def stageExtended (cfg : MatchConfig) (o : PlexOracles) (c : CacheState)
    (track : Track) : Option Item :=
  if cfg.extendedCacheEnabled then
    let keys := buildLookupKeys track.title track.artist track.album
    let artistNorm := keys.2.1
    let lookupKeyFull := keys.2.2.2.1
    let lookupKeyPartial := keys.2.2.2.2
    match alookup c.lookupFull lookupKeyFull with
    | some t => some t
    | none =>
      let durRes :=
        match track.durationMs with
        | none => none
        | some dms =>
          match getDurationBucket cfg.durationBucketSeconds (some dms) with
          | none => none
          | some bucket =>
            let bucketCands := (alookup c.partialDurationIndex lookupKeyPartial).getD []
            let candidates :=
              ((alookup bucketCands (bucket - 1)).getD []) ++
              ((alookup bucketCands bucket).getD []) ++
              ((alookup bucketCands (bucket + 1)).getD [])
            let best := candidates.foldl
              (fun (best : Option Item × ℚ) (cand : Item) =>
                match cand.duration with
                | none => best
                | some cd =>
                  if cfg.durationToleranceMs < |cd - dms| then best
                  else
                    let sc := similarity o cand.title track.title
                    if sc > best.2 then (some cand, sc) else best)
              ((none : Option Item), (0 : ℚ))
            match best.1 with
            | some t => if 17/20 ≤ best.2 then some t else none
            | none => none
      match durRes with
      | some t => some t
      | none =>
        let artistCands := (alookup c.artistIndex artistNorm).getD []
        let best := artistCands.foldl
          (fun (best : Option Item × ℚ) (cand : Item) =>
            let sc := similarity o cand.title track.title
            if sc > best.2 then (some cand, sc) else best)
          ((none : Option Item), (0 : ℚ))
        match best.1 with
        | some t => if 22/25 ≤ best.2 then some t else none
        | none => none
  else none

/-- The legacy exact lowercase-key cache hit (lines 669–678). -/
def stageRawKey (c : CacheState) (track : Track) : Option Item :=
  alookup c.tracksCacheIndex
    (lowerStr track.title ++ "|" ++ lowerStr track.artist ++ "|" ++ lowerStr track.album)

/-- Python `' '.join(track.title.split()[:2])`. -/
def firstTwoWords (s : String) : String :=
  String.mk (List.intercalate [' '] ((pyWordsAux s.data []).take 2))

/-- The progressively relaxed search stages (lines 680–728) followed by
the missing-track fall-through, chained with the short-circuiting returns
of the source: each stage's `return match, None` is a `some`, the final
`return None, track` is the `none` case of `matchSingleTrack`. -/
def matchPipeline (cfg : MatchConfig) (o : PlexOracles) (c : CacheState)
    (track : Track) : Option Item :=
  (stageIsrc o track).orElse fun _ =>
  (stageMbidProxy cfg o c track).orElse fun _ =>
  (stageExtended cfg o c track).orElse fun _ =>
  (stageRawKey c track).orElse fun _ =>
  ((searchAndScore o c track (track.title ++ " " ++ track.artist ++ " " ++ track.album)
      (17/20)).1).orElse fun _ =>
  (if ((pyWordsAux track.title.data []).length > 1) then
      (searchAndScore o c track (firstTwoWords track.title ++ " " ++ track.artist)
        (3/5)).1
    else none).orElse fun _ =>
  ((searchAndScore o c track track.artist (13/20)).1).orElse fun _ =>
  (searchAndScore o c track track.title (11/20)).1

/-- Embedding of `plex._match_single_track` (lines 492–731): the staged pipeline; each
success returns `(matched_item, None)`, the fall-through returns
`(None, track)`. -/
def matchSingleTrack (cfg : MatchConfig) (o : PlexOracles) (c : CacheState)
    (track : Track) : Option Item × Option Track :=
  match matchPipeline cfg o c track with
  | some it => (some it, none)
  | none => (none, some track)

/-! ## Paginated cache build loop (`fetch_and_cache_tracks`, lines 246–309) -/

/-- Embedding of `PLEX_BATCH_SIZE` (line 38). -/
def plexBatchSize : Nat := 500

/-- Outcome of `fetch_plex_tracks` at an offset, after its three
`tenacity` attempts: a page of tracks, or the re-raised exception. -/
inductive FetchResult where
  | ok (tracks : List Item)
  | err
  deriving DecidableEq, Repr

/-- One iteration of the `while True` body of `fetch_and_cache_tracks`:
`some offset'` continues the loop at `offset'`, `none` breaks.  On an
exception the source logs, sleeps and `continue`s — the offset is *not*
advanced (`offset += limit` is only reached on success, line 285). -/
def fetchStepOffset (pages : Nat → FetchResult) (offset : Nat) : Option Nat :=
  match pages offset with
  | FetchResult.err => some offset
  | FetchResult.ok [] => none
  | FetchResult.ok (_ :: _) => some (offset + plexBatchSize)

/-- The cache-build loop run with bounded fuel: `some offset` when the
loop has hit the empty page and terminated, `none` when it is still
running after `fuel` iterations. -/
def fetchLoop (pages : Nat → FetchResult) : Nat → Nat → Option Nat
  | 0, _ => none
  | fuel + 1, offset =>
    match fetchStepOffset pages offset with
    | none => some offset
    | some offset' => fetchLoop pages fuel offset'

/-! ## Liked-track rating sync (`sync_liked_tracks_to_plex`, lines 1100–1193) -/

/-- One row of the `liked_tracks` table, composite key `(plex_id, source)`. -/
structure LikedRec where
  plexId : Nat
  source : String
  trackKey : String
  deriving DecidableEq, Repr

/-- Python set insertion for an arbitrary decidable type (members listed
in first-insertion order). -/
def pyInsert {α : Type} [DecidableEq α] (s : List α) (x : α) : List α :=
  if x ∈ s then s else s ++ [x]

/-- Embedding of `get_previously_synced_liked_tracks` (lines 1066–1074): the set of
plex ids recorded for a source. -/
def getPreviouslySynced (recs : List LikedRec) (source : String) : List Nat :=
  ((recs.filter (fun r => r.source = source)).map (fun r => r.plexId)).foldl pyInsert []

/-- Embedding of `INSERT OR REPLACE INTO liked_tracks` (`save_synced_liked_track`). -/
def upsertLiked (recs : List LikedRec) (rec : LikedRec) : List LikedRec :=
  (recs.filter (fun r => ¬(r.plexId = rec.plexId ∧ r.source = rec.source))) ++ [rec]

/-- Embedding of `DELETE FROM liked_tracks WHERE plex_id = ? AND source = ?`
(`remove_synced_liked_track`). -/
def removeLiked (recs : List LikedRec) (plexId : Nat) (source : String) :
    List LikedRec :=
  recs.filter (fun r => ¬(r.plexId = plexId ∧ r.source = source))

/-- Outcome of `plex.fetchItem(plex_id)` in the revocation loop. -/
inductive FetchOut where
  | found (it : Item)
  | notFound
  | error
  deriving Repr

/-- External effects of the liked-track sync: the per-track match outcome
(`_match_single_track`'s first component), whether `rate_plex_track`
succeeds, and the `fetchItem` outcome in the revocation loop. -/
structure SyncOracles where
  matcher : Track → Option Item
  rateOk : Nat → ℚ → Bool
  fetchLiked : Nat → FetchOut

/-- Mutable state threaded through `sync_liked_tracks_to_plex`: the
`liked_tracks` table, the `current_liked_plex_ids` set, and the log of
attempted `rate_plex_track` calls `(plex_id, rating)`. -/
structure SyncState where
  recs : List LikedRec
  currentLiked : List Nat
  writes : List (Nat × ℚ)
  deriving Repr

/-- The `process_track` closure (lines 1135–1159): on a match, record the
plex id as currently liked; rate 5 stars and save a `LikedTrackRecord`
only when not previously synced. -/
def processTrack (o : SyncOracles) (source : String) (prev : List Nat)
    (st : SyncState) (track : Track) : SyncState :=
  match o.matcher track with
  | none => st
  | some it =>
    let pid := it.ratingKey
    let cur := pyInsert st.currentLiked pid
    if pid ∈ prev then { st with currentLiked := cur }
    else
      let writes := st.writes ++ [(pid, 10)]
      if o.rateOk pid 10 then
        { recs := upsertLiked st.recs
            ⟨pid, source, track.title ++ "|" ++ track.artist ++ "|" ++ track.album⟩,
          currentLiked := cur, writes := writes }
      else { st with currentLiked := cur, writes := writes }

/-- The revocation loop body (lines 1168–1188): fetch the leftover item;
on success attempt a zero rating and delete the record when the write
succeeds; on `NotFound` delete the record regardless; on any other error
leave the record in place. -/
def unrateStep (o : SyncOracles) (source : String) (st : SyncState) (pid : Nat) :
    SyncState :=
  match o.fetchLiked pid with
  | FetchOut.error => st
  | FetchOut.notFound => { st with recs := removeLiked st.recs pid source }
  | FetchOut.found _ =>
    let writes := st.writes ++ [(pid, 0)]
    if o.rateOk pid 0 then
      { st with recs := removeLiked st.recs pid source, writes := writes }
    else { st with writes := writes }

/-- Embedding of `plex.sync_liked_tracks_to_plex` (lines 1100–1193).  The semaphore-
bounded concurrent phase 1 is modelled sequentially (its effects — the
`current_liked_plex_ids` set, the per-id record writes — are order
independent for the properties below).  An empty liked list returns
immediately (line 1118). -/
def syncLikedTracksToPlex (o : SyncOracles) (likedTracks : List Track)
    (source : String) (recs : List LikedRec) : SyncState :=
  if likedTracks = [] then ⟨recs, [], []⟩
  else
    let prev := getPreviouslySynced recs source
    let st1 := likedTracks.foldl (processTrack o source prev) ⟨recs, [], []⟩
    let toUnrate := prev.filter (fun pid => pid ∉ st1.currentLiked)
    toUnrate.foldl (unrateStep o source) st1

/-! ## Concrete fixtures used by witnesses and counterexamples -/

/-- An item used by concrete witnesses below: the real "Yesterday". -/
def yesterdayItem : Item :=
  { ratingKey := 101, title := "Yesterday", artistName := "The Beatles",
    albumName := "Help!", year := some 1965, genres := ["Rock"],
    duration := some 125000 }

/-- A decoy item whose title/artist fuzzy-match the witness track. -/
def decoyItem : Item :=
  { ratingKey := 202, title := "Yesterday", artistName := "Beatles Cover Band",
    albumName := "Covers", year := some 2001, genres := [], duration := none }

/-- Default matcher configuration (`extended_cache_enabled = True`,
`musicbrainz_enabled = True`, bucket 5 s, tolerance 5000 ms). -/
def defaultCfg : MatchConfig :=
  { extendedCacheEnabled := true, musicbrainzEnabled := true,
    durationBucketSeconds := 5, durationToleranceMs := 5000 }

/-- Oracles for the C2 witness: the ISRC search finds the real item while
the similarity oracle maximally favours every candidate (score 1), so any
fuzzy stage would pick the decoy — yet the ISRC stage wins. -/
def isrcWitnessOracles : PlexOracles :=
  { isrcSearch := fun _ => some [yesterdayItem],
    resolveIsrc := fun _ => [],
    fetchItem := fun _ => none,
    guidSearch := fun _ => none,
    plexSearch := fun _ => none,
    ratio := fun _ _ => 1 }

/-- A cache state holding only the decoy, with its derived indexes
rebuilt as the source's `_rebuild_cache_index`/`_rebuild_extended_indexes`
would. -/
def decoyCache : CacheState :=
  rebuildExtendedIndexes 5 (rebuildCacheIndex
    { tracksCache := [(rawKey decoyItem, decoyItem)], tracksCacheIndex := [],
      lookupFull := [], lookupPartial := [], partialDurationIndex := [],
      artistIndex := [], durationIndex := [], mbidIndex := [], dbRows := [] })

/-- Oracles whose external calls all fail or return nothing (any live
search finds nothing). -/
def noopOracles : PlexOracles :=
  { isrcSearch := fun _ => none, resolveIsrc := fun _ => [],
    fetchItem := fun _ => none, guidSearch := fun _ => none,
    plexSearch := fun _ => none, ratio := fun _ _ => 0 }

/-- A populated cache state: one track (`yesterdayItem`) merged into the
raw map and persisted row set, with all derived indexes rebuilt. -/
def yCache : CacheState :=
  rebuildExtendedIndexes 5 (rebuildCacheIndex
    { tracksCache := [(rawKey yesterdayItem, yesterdayItem)],
      tracksCacheIndex := [], lookupFull := [], lookupPartial := [],
      partialDurationIndex := [], artistIndex := [], durationIndex := [],
      mbidIndex := [], dbRows := [rawKey yesterdayItem] })

/-- The case-differing query track of the end-to-end scenario. -/
def yLowerTrack : Track :=
  { title := "yesterday", artist := "the beatles", album := "help!",
    url := "", year := "", genre := "", isrc := none, durationMs := none }

/-- A MusicBrainz response in which the same MBID `"x"` appears both as a
Release id and as a Release-Track id of the same recording. -/
def dupMbidResponse : List MBRecording :=
  [{ id := none, releases := [{ id := some "x", media := [[some "x"]] }] }]

/-- The Release-typed `ScoredMBID` for `"x"`. -/
def xAsRelease : ScoredMBID :=
  { mbid := "x", mbidType := MBIDType.release,
    confidence := confidenceScore MBIDType.release }

/-- Sync oracles for the liked-track fixtures: nothing matches, every
rating write succeeds, every fetch reports not-found. -/
def emptySyncOracles : SyncOracles :=
  { matcher := fun _ => none, rateOk := fun _ _ => true,
    fetchLiked := fun _ => FetchOut.notFound }

/-- Liked-track records of the revocation scenario: plex ids 101 and 102
previously synced from `spotify`. -/
def likedRec101 : LikedRec := ⟨101, "spotify", "A|B|C"⟩

def likedRec102 : LikedRec := ⟨102, "spotify", "D|E|F"⟩

/-- The currently liked track of the revocation scenario; it matches plex
id 101. -/
def likedTrackL1 : Track :=
  { title := "A", artist := "B", album := "C", url := "", year := "",
    genre := "", isrc := none, durationMs := none }

/-- The Plex items of the revocation scenario. -/
def syncItem101 : Item :=
  { ratingKey := 101, title := "A", artistName := "B", albumName := "C" }

def syncItem102 : Item :=
  { ratingKey := 102, title := "D", artistName := "E", albumName := "F" }

/-- Sync oracles for the revocation witness: the one liked track matches
plex id 101, fetching 102 finds it, and all rating writes succeed. -/
def revocationOracles : SyncOracles :=
  { matcher := fun t => if t.title = "A" then some syncItem101 else none,
    rateOk := fun _ _ => true,
    fetchLiked := fun pid =>
      if pid = 102 then FetchOut.found syncItem102 else FetchOut.notFound }

end Plexist

namespace Plexist

/-! ## Helper lemmas about the set-insertion fold -/

theorem mem_insertStr {s : List String} {m x : String} :
    x ∈ insertStr s m ↔ x ∈ s ∨ x = m := by
  unfold insertStr
  split
  · rename_i h
    constructor
    · exact fun hx => Or.inl hx
    · rintro (hx | rfl)
      · exact hx
      · exact h
  · simp [List.mem_append]

theorem mem_foldl_insertStr (f : CacheRow → String) :
    ∀ (l : List CacheRow) (acc : List String) (x : String),
      x ∈ l.foldl (fun a r => insertStr a (f r)) acc ↔ x ∈ acc ∨ ∃ r ∈ l, f r = x := by
  intro l
  induction l with
  | nil => simp
  | cons r l ih =>
    intro acc x
    simp only [List.foldl_cons, ih, mem_insertStr]
    constructor
    · rintro ((hx | rfl) | ⟨r', hr', rfl⟩)
      · exact Or.inl hx
      · exact Or.inr ⟨r, List.mem_cons_self .., rfl⟩
      · exact Or.inr ⟨r', List.mem_cons_of_mem _ hr', rfl⟩
    · rintro (hx | ⟨r', hr', rfl⟩)
      · exact Or.inl (Or.inl hx)
      · rcases List.mem_cons.1 hr' with rfl | hr'
        · exact Or.inl (Or.inr rfl)
        · exact Or.inr ⟨r', hr', rfl⟩

/-- Sanity: an un-cached ISRC is a miss. -/
example : getCachedMbids 90 7 100 [] "USRC1" = none := by decide

/-- Sanity: a fresh positive row is returned. -/
example :
    getCachedMbids 90 7 100 [⟨"USRC1", "m1", false, 100⟩] "USRC1" = some ["m1"] := by
  decide

/-- Sanity: a fresh negative row yields the empty set. -/
example :
    getCachedMbids 90 7 100 [⟨"USRC1", "", true, 100⟩] "USRC1" = some [] := by
  decide

/-- Sanity: an expired positive row (100 days old, TTL 90) is a miss. -/
example :
    getCachedMbids 90 7 100 [⟨"USRC1", "m1", false, 0⟩] "USRC1" = none := by
  decide

theorem mem_pyInsert {α : Type} [DecidableEq α] {s : List α} {m x : α} :
    x ∈ pyInsert s m ↔ x ∈ s ∨ x = m := by
  unfold pyInsert
  split
  · rename_i h
    constructor
    · exact fun hx => Or.inl hx
    · rintro (hx | rfl)
      · exact hx
      · exact h
  · simp [List.mem_append]

/-! ## Claim C1: the matcher returns exactly one non-null component -/

/-- C1.  For every input `Track`, every configuration, every cache state
and every behaviour of the external oracles, `_match_single_track` returns
either `(some matched_item, none)` or `(none, some track)` with the
original track in the missing slot — exactly one component is non-null on
every execution path. -/
theorem match_single_track_exactly_one_component
    (cfg : MatchConfig) (o : PlexOracles) (c : CacheState) (track : Track) :
    (∃ it, matchSingleTrack cfg o c track = (some it, none)) ∨
      matchSingleTrack cfg o c track = (none, some track) := by
  unfold matchSingleTrack
  cases matchPipeline cfg o c track with
  | none => exact Or.inr rfl
  | some it => exact Or.inl ⟨it, rfl⟩

/-! ## Claim C2: the ISRC stage short-circuits the pipeline -/

/-- C2.  Whenever `track.isrc` is set (truthy) and the direct Plex ISRC
guid search returns a non-empty result list, `_match_single_track` returns
the first ISRC search result — for *every* behaviour of the later stages
(MBID proxy, normalized cache, duration, artist index, raw key, relaxed
text searches) and every similarity oracle, so no later stage can override
the ISRC stage even with a higher fuzzy score. -/
theorem isrc_stage_short_circuits
    (cfg : MatchConfig) (o : PlexOracles) (c : CacheState) (track : Track)
    (r : Item) (rs : List Item)
    (hisrc : pyTruthyStr track.isrc = true)
    (hsearch : o.isrcSearch (optStr track.isrc) = some (r :: rs)) :
    matchSingleTrack cfg o c track = (some r, none) := by
  have hstage : stageIsrc o track = some r := by
    unfold stageIsrc
    rw [hisrc, if_pos rfl, hsearch]
  unfold matchSingleTrack matchPipeline
  rw [hstage]
  rfl

/-- Witness for C2 at a concrete input: a track with a correct ISRC whose
title/artist would fuzzy-match the cached decoy resolves to the ISRC
result. -/
theorem isrc_stage_short_circuits_witness :
    matchSingleTrack defaultCfg isrcWitnessOracles decoyCache
      { title := "Yesterday", artist := "Beatles Cover Band", album := "Covers",
        url := "", year := "", genre := "", isrc := some "USRC17607839",
        durationMs := none } = (some yesterdayItem, none) :=
  isrc_stage_short_circuits defaultCfg isrcWitnessOracles decoyCache _
    yesterdayItem [] (by decide) rfl

/-! ## Claim C8: what `clear_cache` actually clears -/

/-- C8 counterexample.  After `clear_cache` on a populated state, the
normalized lookup index and the lowercase index are *not* empty, and a
subsequent match still finds the stale cached candidate through the
normalized-exact stage — refuting that all in-memory indexes are empty and
that no stage can find a cached candidate. -/
theorem clear_cache_leaves_derived_indexes_cex :
    (clearCache yCache).lookupFull ≠ [] ∧
    (clearCache yCache).tracksCacheIndex ≠ [] ∧
    matchSingleTrack defaultCfg noopOracles (clearCache yCache) yLowerTrack =
      (some yesterdayItem, none) := by
  refine ⟨by decide, by decide, by decide⟩

/-- C8 as amended: `clear_cache` empties the raw `title|artist|album` map
and the persisted `plex_cache` rows, but leaves every derived in-memory
index (lowercase index, normalized full/partial indexes, artist index,
duration-bucket indexes, MBID index) untouched; consequently a subsequent
match whose normalized full key is still indexed returns the stale item. -/
theorem clear_cache_scope (s : CacheState) (cfg : MatchConfig)
    (o : PlexOracles) (track : Track) (t : Item)
    (hext : cfg.extendedCacheEnabled = true)
    (hisrc : track.isrc = none)
    (hhit : alookup s.lookupFull
      (buildLookupKeys track.title track.artist track.album).2.2.2.1 = some t) :
    (clearCache s).tracksCache = [] ∧
    (clearCache s).dbRows = [] ∧
    (clearCache s).tracksCacheIndex = s.tracksCacheIndex ∧
    (clearCache s).lookupFull = s.lookupFull ∧
    (clearCache s).lookupPartial = s.lookupPartial ∧
    (clearCache s).partialDurationIndex = s.partialDurationIndex ∧
    (clearCache s).artistIndex = s.artistIndex ∧
    (clearCache s).durationIndex = s.durationIndex ∧
    (clearCache s).mbidIndex = s.mbidIndex ∧
    matchSingleTrack cfg o (clearCache s) track = (some t, none) := by
  refine ⟨rfl, rfl, rfl, rfl, rfl, rfl, rfl, rfl, rfl, ?_⟩
  have h0 : stageIsrc o track = none := by
    unfold stageIsrc
    rw [hisrc]
    rfl
  have h05 : stageMbidProxy cfg o (clearCache s) track = none := by
    unfold stageMbidProxy
    rw [hisrc]
    simp [pyTruthyStr]
  have h1 : stageExtended cfg o (clearCache s) track = some t := by
    unfold stageExtended
    rw [hext]
    simp only [if_true]
    have : (clearCache s).lookupFull = s.lookupFull := rfl
    rw [this, hhit]
  unfold matchSingleTrack matchPipeline
  rw [h0, h05, h1]
  rfl

/-- Witness for the amended C8 at the end-to-end scenario input: clearing
the populated cache does not prevent the case-differing query from
matching the stale indexed item. -/
theorem clear_cache_scope_witness :
    (clearCache yCache).lookupFull = yCache.lookupFull ∧
    matchSingleTrack defaultCfg noopOracles (clearCache yCache) yLowerTrack =
      (some yesterdayItem, none) := by
  have h := clear_cache_scope yCache defaultCfg noopOracles yLowerTrack
    yesterdayItem rfl rfl (by decide)
  exact ⟨h.2.2.2.1, h.2.2.2.2.2.2.2.2.2⟩

/-! ## Claim C6: a permanently failing page does not advance the offset -/

/-- C6 counterexample.  With a page fetch that permanently fails at offset
0, one loop iteration continues at the *same* offset 0 — not at the next
offset 500 as claimed — and the loop is still running after 100
iterations, so the scan does not terminate past the failing page. -/
theorem failed_page_same_offset_cex :
    fetchStepOffset (fun _ => FetchResult.err) 0 = some 0 ∧
    some 0 ≠ some plexBatchSize ∧
    fetchLoop (fun _ => FetchResult.err) 100 0 = none := by
  refine ⟨rfl, by decide, ?_⟩
  set_option maxRecDepth 4000 in decide

/-- C6 as amended: when fetching one page fails even after the retries
inside `fetch_plex_tracks`, the `except` branch sleeps and `continue`s
*without* advancing the offset (`offset += limit` is only executed on
success); a page that fails persistently is retried at the same offset
forever, so the build loop never terminates while the failure lasts. -/
theorem failed_page_never_advances (pages : Nat → FetchResult) (offset : Nat)
    (h : pages offset = FetchResult.err) :
    fetchStepOffset pages offset = some offset ∧
    ∀ fuel, fetchLoop pages fuel offset = none := by
  have hstep : fetchStepOffset pages offset = some offset := by
    unfold fetchStepOffset
    rw [h]
  refine ⟨hstep, ?_⟩
  intro fuel
  induction fuel with
  | zero => rfl
  | succ n ih =>
    unfold fetchLoop
    rw [hstep]
    exact ih

/-- Witness for the amended C6 at a concrete input. -/
theorem failed_page_never_advances_witness :
    fetchStepOffset (fun _ => FetchResult.err) 0 = some 0 ∧
    fetchLoop (fun _ => FetchResult.err) 7 0 = none := by
  have h := failed_page_never_advances (fun _ => FetchResult.err) 0 rfl
  exact ⟨h.1, h.2 7⟩

/-! ## Claim C5: TTL semantics of `get_cached_mbids` for positive rows -/

/-- C5.  In a cache state whose rows for the ISRC are all positive (the
spec's data-model invariant — positive and negative rows for one ISRC are
mutually exclusive): if every positive row is older than the positive TTL
the lookup is a miss (`none`, triggering re-fetch); and any positive row
within the positive TTL — in particular one aged past the shorter
negative TTL — still contributes its MBID to a returned positive set (the
negative TTL never expires positive rows). -/
theorem positive_ttl_expiry_semantics
    (posTTL negTTL now : Int) (db : List CacheRow) (isrc : String)
    (hpos : ∀ r ∈ rowsFor db isrc, r.isNeg = false) :
    ((rowsFor db isrc ≠ [] ∧ ∀ r ∈ rowsFor db isrc, r.cachedAt < now - posTTL) →
      getCachedMbids posTTL negTTL now db isrc = none) ∧
    (∀ r ∈ rowsFor db isrc, now - posTTL ≤ r.cachedAt → r.cachedAt < now - negTTL →
      ∃ mbids, getCachedMbids posTTL negTTL now db isrc = some mbids ∧
        r.mbid ∈ mbids) := by
  have hfind : (rowsFor db isrc).find? (fun r => r.isNeg) = none :=
    List.find?_eq_none.2 (fun x hx => by simp [hpos x hx])
  constructor
  · rintro ⟨hne, hexp⟩
    simp only [getCachedMbids]
    rw [if_neg hne, hfind]
    have hfilter :
        (rowsFor db isrc).filter (fun r => ¬r.isNeg ∧ now - posTTL ≤ r.cachedAt) = [] :=
      List.filter_eq_nil_iff.2 (fun x hx => by
        have := hexp x hx
        simp [not_le.2 this])
    rw [hfilter]
    rfl
  · intro r hr hfresh hold
    have hne : rowsFor db isrc ≠ [] := List.ne_nil_of_mem hr
    simp only [getCachedMbids]
    rw [if_neg hne, hfind]
    have hmemfilter :
        r ∈ (rowsFor db isrc).filter (fun r => ¬r.isNeg ∧ now - posTTL ≤ r.cachedAt) :=
      List.mem_filter.2 ⟨hr, by simp [hpos r hr, hfresh]⟩
    have hmem : r.mbid ∈
        ((rowsFor db isrc).filter (fun r => ¬r.isNeg ∧ now - posTTL ≤ r.cachedAt)).foldl
          (fun acc r => insertStr acc r.mbid) [] :=
      (mem_foldl_insertStr (fun r => r.mbid) _ [] _).2 (Or.inr ⟨r, hmemfilter, rfl⟩)
    have hvne :
        ((rowsFor db isrc).filter (fun r => ¬r.isNeg ∧ now - posTTL ≤ r.cachedAt)).foldl
          (fun acc r => insertStr acc r.mbid) [] ≠ [] := by
      intro hcontra
      rw [hcontra] at hmem
      exact List.not_mem_nil _ hmem
    rw [if_neg hvne]
    exact ⟨_, rfl, hmem⟩

/-- Witness for C5: a lone positive row aged 100 days (past the 90-day
positive TTL) is a miss; a lone positive row aged 50 days (past the 7-day
negative TTL, within the positive TTL) still yields its MBID set. -/
theorem positive_ttl_expiry_semantics_witness :
    getCachedMbids 90 7 100 [⟨"USRC1", "m1", false, 0⟩] "USRC1" = none ∧
    ∃ mbids, getCachedMbids 90 7 100 [⟨"USRC1", "m1", false, 50⟩] "USRC1" =
      some mbids ∧ "m1" ∈ mbids := by
  constructor
  · exact (positive_ttl_expiry_semantics 90 7 100 [⟨"USRC1", "m1", false, 0⟩]
      "USRC1" (by decide)).1 ⟨by decide, by decide⟩
  · exact (positive_ttl_expiry_semantics 90 7 100 [⟨"USRC1", "m1", false, 50⟩]
      "USRC1" (by decide)).2 ⟨"USRC1", "m1", false, 50⟩ (by decide) (by decide)
      (by decide)

/-! ## Claims C3 and C4: caching of empty-resolution outcomes -/

/-- Shared helper: resolving an un-cached ISRC whose external query
returns the empty set writes exactly one negative row (one external call),
and a second resolution within the negative TTL is answered from the
negative cache with no external call. -/
theorem uncachedEmptyRoundTrip
    (api : String → HttpOutcome) (posTTL negTTL now1 now2 : Int)
    (db : List CacheRow) (isrc : String)
    (hne : isrc ≠ "")
    (hmiss : rowsFor db (pyNormIsrc isrc) = [])
    (hapi : queryMusicbrainzApi (api (pyNormIsrc isrc)) = [])
    (hage : now2 - now1 ≤ negTTL) :
    getMbidsForIsrc api posTTL negTTL now1 db isrc =
      ([], db ++ [⟨pyNormIsrc isrc, "", true, now1⟩], 1) ∧
    getMbidsForIsrc api posTTL negTTL now2
        (db ++ [⟨pyNormIsrc isrc, "", true, now1⟩]) isrc =
      ([], db ++ [⟨pyNormIsrc isrc, "", true, now1⟩], 0) := by
  have hnodbrow : ∀ r ∈ db, ¬(r.isrc = pyNormIsrc isrc) := by
    intro r hr
    have := List.filter_eq_nil_iff.1 hmiss r hr
    simpa using this
  have hc1 : getCachedMbids posTTL negTTL now1 db (pyNormIsrc isrc) = none := by
    simp only [getCachedMbids]
    rw [if_pos hmiss]
  have hsave : saveMbidsToCache now1 db (pyNormIsrc isrc)
      (pyNormMbids (queryMusicbrainzApi (api (pyNormIsrc isrc)))) =
      db ++ [⟨pyNormIsrc isrc, "", true, now1⟩] := by
    rw [hapi]
    show saveMbidsToCache now1 db (pyNormIsrc isrc) [] = _
    simp only [saveMbidsToCache, pyNormMbids, List.filterMap_nil, List.foldl_nil,
      if_pos rfl]
    unfold upsertRow
    have : db.filter
        (fun r => ¬(r.isrc = pyNormIsrc isrc ∧ r.mbid = "")) = db :=
      List.filter_eq_self.2 (fun r hr => by simp [hnodbrow r hr])
    rw [this]
    rw [if_pos trivial]
  have hfirst : getMbidsForIsrc api posTTL negTTL now1 db isrc =
      ([], db ++ [⟨pyNormIsrc isrc, "", true, now1⟩], 1) := by
    simp only [getMbidsForIsrc]
    rw [if_neg hne, hc1, hapi]
    rw [hapi] at hsave
    exact congrArg (fun x => (([] : List String), x, 1)) hsave
  have hrows2 : rowsFor (db ++ [⟨pyNormIsrc isrc, "", true, now1⟩])
      (pyNormIsrc isrc) = [⟨pyNormIsrc isrc, "", true, now1⟩] := by
    unfold rowsFor
    rw [List.filter_append]
    rw [show (db.filter (fun r => r.isrc = pyNormIsrc isrc)) = [] from hmiss]
    simp
  have hc2 : getCachedMbids posTTL negTTL now2
      (db ++ [⟨pyNormIsrc isrc, "", true, now1⟩]) (pyNormIsrc isrc) = some [] := by
    simp only [getCachedMbids]
    rw [hrows2]
    rw [if_neg (by simp)]
    have hfind : ([⟨pyNormIsrc isrc, "", true, now1⟩] :
        List CacheRow).find? (fun r => r.isNeg) =
        some ⟨pyNormIsrc isrc, "", true, now1⟩ := by
      simp [List.find?]
    rw [hfind]
    have hle : now2 - negTTL ≤ now1 := by omega
    simp [hle]
  have hsecond : getMbidsForIsrc api posTTL negTTL now2
      (db ++ [⟨pyNormIsrc isrc, "", true, now1⟩]) isrc =
      ([], db ++ [⟨pyNormIsrc isrc, "", true, now1⟩], 0) := by
    simp only [getMbidsForIsrc]
    rw [if_neg hne, hc2]
  exact ⟨hfirst, hsecond⟩

/-- C3.  Resolving an ISRC that MusicBrainz reports as not found (404)
from an un-cached state stores a negative cache row and counts one
external call; a second resolution while the negative row is within the
negative TTL returns the empty set from cache and issues no external call
— exactly one external call across the two resolutions. -/
theorem negative_cache_round_trip
    (api : String → HttpOutcome) (posTTL negTTL now1 now2 : Int)
    (db : List CacheRow) (isrc : String)
    (hne : isrc ≠ "")
    (hmiss : rowsFor db (pyNormIsrc isrc) = [])
    (h404 : api (pyNormIsrc isrc) = HttpOutcome.notFound)
    (hage : now2 - now1 ≤ negTTL) :
    (getMbidsForIsrc api posTTL negTTL now1 db isrc).2.2 = 1 ∧
    (⟨pyNormIsrc isrc, "", true, now1⟩ : CacheRow) ∈
      (getMbidsForIsrc api posTTL negTTL now1 db isrc).2.1 ∧
    (getMbidsForIsrc api posTTL negTTL now2
      (getMbidsForIsrc api posTTL negTTL now1 db isrc).2.1 isrc).1 = [] ∧
    (getMbidsForIsrc api posTTL negTTL now2
      (getMbidsForIsrc api posTTL negTTL now1 db isrc).2.1 isrc).2.2 = 0 := by
  obtain ⟨h1, h2⟩ := uncachedEmptyRoundTrip api posTTL negTTL now1 now2 db isrc
    hne hmiss (by rw [h404]; rfl) hage
  rw [h1]
  refine ⟨rfl, ?_, ?_, ?_⟩
  · exact List.mem_append.2 (Or.inr (List.mem_singleton.2 rfl))
  · rw [h2]
  · rw [h2]

/-- Witness for C3 at a concrete input: two resolutions of an unknown
ISRC three days apart issue exactly one external call. -/
theorem negative_cache_round_trip_witness :
    (getMbidsForIsrc (fun _ => HttpOutcome.notFound) 90 7 0 [] "USRC17607839").2.2 = 1 ∧
    (⟨"USRC17607839", "", true, 0⟩ : CacheRow) ∈
      (getMbidsForIsrc (fun _ => HttpOutcome.notFound) 90 7 0 [] "USRC17607839").2.1 ∧
    (getMbidsForIsrc (fun _ => HttpOutcome.notFound) 90 7 3
      (getMbidsForIsrc (fun _ => HttpOutcome.notFound) 90 7 0 []
        "USRC17607839").2.1 "USRC17607839").1 = [] ∧
    (getMbidsForIsrc (fun _ => HttpOutcome.notFound) 90 7 3
      (getMbidsForIsrc (fun _ => HttpOutcome.notFound) 90 7 0 []
        "USRC17607839").2.1 "USRC17607839").2.2 = 0 :=
  negative_cache_round_trip (fun _ => HttpOutcome.notFound) 90 7 0 3 []
    "USRC17607839" (by decide) rfl rfl (by decide)

/-- C4 counterexample.  With the external query failing with a non-200
status (`raise_for_status` path), resolving an un-cached ISRC *does*
write a negative row (the cache is not left unchanged), and an
immediately subsequent resolution issues no fresh external call. -/
theorem error_outcome_writes_negative_row_cex :
    (getMbidsForIsrc (fun _ => HttpOutcome.otherStatus) 90 7 0 []
      "US1230000001").2.1 = [⟨"US1230000001", "", true, 0⟩] ∧
    (getMbidsForIsrc (fun _ => HttpOutcome.otherStatus) 90 7 3
      [⟨"US1230000001", "", true, 0⟩] "US1230000001").2.2 = 0 := by
  exact ⟨by decide, by decide⟩

/-- C4 as amended: a non-200/404/503 response, a timeout or a network
error makes `query_musicbrainz_api_with_scores` return the empty set, and
`get_mbids_for_isrc` caches that empty set as a negative row exactly as if
the ISRC were not found; an immediately subsequent resolution within the
negative TTL therefore hits the negative cache entry and issues *no*
fresh external call. -/
theorem error_outcome_cached_as_negative
    (api : String → HttpOutcome) (posTTL negTTL now1 now2 : Int)
    (db : List CacheRow) (isrc : String)
    (hne : isrc ≠ "")
    (hmiss : rowsFor db (pyNormIsrc isrc) = [])
    (herr : api (pyNormIsrc isrc) = HttpOutcome.otherStatus ∨
      api (pyNormIsrc isrc) = HttpOutcome.timeout ∨
      api (pyNormIsrc isrc) = HttpOutcome.netError)
    (hage : now2 - now1 ≤ negTTL) :
    (getMbidsForIsrc api posTTL negTTL now1 db isrc).2.1 =
      db ++ [⟨pyNormIsrc isrc, "", true, now1⟩] ∧
    (getMbidsForIsrc api posTTL negTTL now2
      (db ++ [⟨pyNormIsrc isrc, "", true, now1⟩]) isrc).2.2 = 0 := by
  have hapi : queryMusicbrainzApi (api (pyNormIsrc isrc)) = [] := by
    rcases herr with h | h | h <;> rw [h] <;> rfl
  obtain ⟨h1, h2⟩ := uncachedEmptyRoundTrip api posTTL negTTL now1 now2 db isrc
    hne hmiss hapi hage
  exact ⟨by rw [h1], by rw [h2]⟩

/-- Witness for the amended C4 at a concrete input (timeout outcome). -/
theorem error_outcome_cached_as_negative_witness :
    (getMbidsForIsrc (fun _ => HttpOutcome.timeout) 90 7 0 []
      "QMDA71900000").2.1 = [] ++ [⟨"QMDA71900000", "", true, 0⟩] ∧
    (getMbidsForIsrc (fun _ => HttpOutcome.timeout) 90 7 2
      ([] ++ [⟨"QMDA71900000", "", true, 0⟩]) "QMDA71900000").2.2 = 0 :=
  error_outcome_cached_as_negative (fun _ => HttpOutcome.timeout) 90 7 0 2 []
    "QMDA71900000" (by decide) rfl (Or.inr (Or.inl rfl)) (by decide)


/-! ## Claim C9: `ScoredMBID` set semantics -/

theorem pySetAdd_foldl_nodup (l : List ScoredMBID) :
    ∀ acc : List ScoredMBID, (acc.map (fun x => x.mbid)).Nodup →
      ((l.foldl pySetAdd acc).map (fun x => x.mbid)).Nodup := by
  induction l with
  | nil => intro acc h; simpa using h
  | cons a l ih =>
    intro acc h
    rw [List.foldl_cons]
    apply ih
    unfold pySetAdd
    split
    · exact h
    · rename_i hany
      have hfresh : a.mbid ∉ acc.map (fun x => x.mbid) := by
        intro hmem
        obtain ⟨y, hy, hkey⟩ := List.mem_map.1 hmem
        exact hany (List.any_eq_true.2 ⟨y, hy, by simp [scoredEq, hkey]⟩)
      simp only [List.map_append, List.map_cons, List.map_nil]
      rw [List.nodup_append]
      exact ⟨h, List.nodup_singleton _, by simpa using hfresh⟩

theorem pySetAdd_foldl_mem (l : List ScoredMBID) :
    ∀ (acc : List ScoredMBID) (x : ScoredMBID),
      x ∈ l.foldl pySetAdd acc ↔
        x ∈ acc ∨ (acc.all (fun y => y.mbid ≠ x.mbid) ∧
          l.find? (fun y => scoredEq y x) = some x) := by
  induction l with
  | nil => intro acc x; simp
  | cons a l ih =>
    intro acc x
    rw [List.foldl_cons, ih]
    by_cases hA : acc.any (fun y => scoredEq y a) = true
    · have hacc' : pySetAdd acc a = acc := by unfold pySetAdd; rw [if_pos hA]
      rw [hacc']
      by_cases hax : a.mbid = x.mbid
      · have hfind : (a :: l).find? (fun y => scoredEq y x) = some a := by
          rw [List.find?_cons_of_pos]
          simp [scoredEq, hax]
        rw [hfind]
        have hallf : acc.all (fun y => y.mbid ≠ x.mbid) = false := by
          obtain ⟨y, hy, hkey⟩ := List.any_eq_true.1 hA
          refine List.all_eq_false.2 ⟨y, hy, ?_⟩
          have : y.mbid = a.mbid := by simpa [scoredEq] using hkey
          simp [this, hax]
        rw [hallf]
        simp
      · have hfind : (a :: l).find? (fun y => scoredEq y x) =
            l.find? (fun y => scoredEq y x) := by
          rw [List.find?_cons_of_neg]
          simp [scoredEq, hax]
        rw [hfind]
    · have hacc' : pySetAdd acc a = acc ++ [a] := by unfold pySetAdd; rw [if_neg hA]
      rw [hacc']
      have hAfresh : ∀ y ∈ acc, y.mbid ≠ a.mbid := by
        intro y hy hkey
        exact hA (List.any_eq_true.2 ⟨y, hy, by simp [scoredEq, hkey]⟩)
      by_cases hax : a.mbid = x.mbid
      · have hfind : (a :: l).find? (fun y => scoredEq y x) = some a := by
          rw [List.find?_cons_of_pos]
          simp [scoredEq, hax]
        rw [hfind]
        have hallacc : acc.all (fun y => y.mbid ≠ x.mbid) = true :=
          List.all_eq_true.2 (fun y hy => by
            have hne := hAfresh y hy
            rw [← hax]
            simpa using hne)
        have happ : (acc ++ [a]).all (fun y => y.mbid ≠ x.mbid) = false := by
          refine List.all_eq_false.2
            ⟨a, List.mem_append.2 (Or.inr (List.mem_singleton.2 rfl)), ?_⟩
          simp [hax]
        rw [happ, hallacc]
        simp only [Bool.false_eq_true, false_and, or_false, true_and,
          Option.some.injEq, List.mem_append, List.mem_singleton]
        constructor
        · rintro (hx | rfl)
          · exact Or.inl hx
          · exact Or.inr rfl
        · rintro (hx | rfl)
          · exact Or.inl hx
          · exact Or.inr rfl
      · have hfind : (a :: l).find? (fun y => scoredEq y x) =
            l.find? (fun y => scoredEq y x) := by
          rw [List.find?_cons_of_neg]
          simp [scoredEq, hax]
        rw [hfind]
        have hall : (acc ++ [a]).all (fun y => y.mbid ≠ x.mbid) =
            acc.all (fun y => y.mbid ≠ x.mbid) := by
          rw [List.all_append]
          have : ([a] : List ScoredMBID).all (fun y => y.mbid ≠ x.mbid) = true := by
            simp [hax]
          rw [this, Bool.and_true]
        rw [hall]
        constructor
        · rintro (hx | h)
          · rcases List.mem_append.1 hx with hx | hx
            · exact Or.inl hx
            · have hxa : x = a := List.mem_singleton.1 hx
              exact absurd (by rw [hxa]) (fun h : a.mbid = x.mbid => hax h)
          · exact Or.inr h
        · rintro (hx | h)
          · exact Or.inl (List.mem_append.2 (Or.inl hx))
          · exact Or.inr h

/-- C9 counterexample.  When the same MBID is inserted first as a Release
(confidence 0.7) and then as a Release-Track (confidence 0.95), the set
retains the *first*-inserted element: the retained type is `release`, not
the higher-confidence `releaseTrack` the claim predicts. -/
theorem duplicate_mbid_keeps_first_cex :
    (parseScoredMbids dupMbidResponse).map (fun sm => (sm.mbid, sm.mbidType)) =
      [("x", MBIDType.release)] ∧
    MBIDType.release ≠ MBIDType.releaseTrack := by
  exact ⟨by decide, by decide⟩

/-- C9 as amended: `ScoredMBID` equality (and hence set membership) is by
`mbid` alone, so the parse result deduplicates by MBID — its MBIDs are
pairwise distinct — and the retained element for each MBID is the *first*
one inserted in the parse order (recording id, then per release its
release id followed by its track ids), not necessarily the one with the
highest confidence. -/
theorem scored_set_dedup_first_wins (recs : List MBRecording) :
    (∀ a b : ScoredMBID, scoredEq a b = true ↔ a.mbid = b.mbid) ∧
    ((parseScoredMbids recs).map (fun x => x.mbid)).Nodup ∧
    (∀ x, x ∈ parseScoredMbids recs ↔
      (parseInsertions recs).find? (fun y => scoredEq y x) = some x) := by
  refine ⟨fun a b => by simp [scoredEq], ?_, ?_⟩
  · exact pySetAdd_foldl_nodup (parseInsertions recs) [] (by simp)
  · intro x
    rw [show parseScoredMbids recs = (parseInsertions recs).foldl pySetAdd [] from rfl]
    rw [pySetAdd_foldl_mem]
    simp

/-- Witness for the amended C9 on the duplicate-MBID response: the first
inserted occurrence (the Release one) is the member, and the set's MBID
list is duplicate-free. -/
theorem scored_set_dedup_first_wins_witness :
    ((parseScoredMbids dupMbidResponse).map (fun x => x.mbid)).Nodup ∧
    (xAsRelease ∈ parseScoredMbids dupMbidResponse ↔
      (parseInsertions dupMbidResponse).find? (fun y => scoredEq y xAsRelease) =
        some xAsRelease) :=
  ⟨(scored_set_dedup_first_wins dupMbidResponse).2.1,
   (scored_set_dedup_first_wins dupMbidResponse).2.2 xAsRelease⟩


/-! ## Claim C10: single vs. batch cache lookup -/

theorem batchStep_foldl (pc nc : Int) :
    ∀ (rows : List CacheRow) (acc : List String × Bool × Bool),
      (rows.foldl (batchStep pc nc) acc).1 =
        (rows.filter (fun r => ¬r.isNeg ∧ pc ≤ r.cachedAt)).foldl
          (fun a r => insertStr a r.mbid) acc.1 ∧
      (rows.foldl (batchStep pc nc) acc).2.1 =
        (acc.2.1 || rows.any (fun r => r.isNeg ∧ nc ≤ r.cachedAt)) := by
  intro rows
  induction rows with
  | nil => intro acc; simp
  | cons r rest ih =>
    intro acc
    obtain ⟨acc1, acc2, acc3⟩ := acc
    by_cases hneg : r.isNeg = true
    · by_cases hval : nc ≤ r.cachedAt
      · have hstep : batchStep pc nc (acc1, acc2, acc3) r = (acc1, true, false) := by
          simp [batchStep, hneg, hval]
        have hfilt : (r :: rest).filter (fun r => ¬r.isNeg ∧ pc ≤ r.cachedAt) =
            rest.filter (fun r => ¬r.isNeg ∧ pc ≤ r.cachedAt) := by
          simp [List.filter_cons, hneg]
        obtain ⟨ih1, ih2⟩ := ih (acc1, true, false)
        refine ⟨?_, ?_⟩
        · rw [List.foldl_cons, hstep, ih1, hfilt]
        · rw [List.foldl_cons, hstep, ih2]
          simp [List.any_cons, hneg, hval]
      · have hstep : batchStep pc nc (acc1, acc2, acc3) r = (acc1, acc2, acc3) := by
          simp [batchStep, hneg, hval]
        have hfilt : (r :: rest).filter (fun r => ¬r.isNeg ∧ pc ≤ r.cachedAt) =
            rest.filter (fun r => ¬r.isNeg ∧ pc ≤ r.cachedAt) := by
          simp [List.filter_cons, hneg]
        obtain ⟨ih1, ih2⟩ := ih (acc1, acc2, acc3)
        refine ⟨?_, ?_⟩
        · rw [List.foldl_cons, hstep, ih1, hfilt]
        · rw [List.foldl_cons, hstep, ih2]
          simp [List.any_cons, hneg, hval]
    · have hnegf : r.isNeg = false := by simpa using hneg
      by_cases hval : pc ≤ r.cachedAt
      · have hstep : batchStep pc nc (acc1, acc2, acc3) r =
            (insertStr acc1 r.mbid, acc2, false) := by
          simp [batchStep, hnegf, hval]
        have hfilt : (r :: rest).filter (fun r => ¬r.isNeg ∧ pc ≤ r.cachedAt) =
            r :: rest.filter (fun r => ¬r.isNeg ∧ pc ≤ r.cachedAt) := by
          simp [List.filter_cons, hnegf, hval]
        obtain ⟨ih1, ih2⟩ := ih (insertStr acc1 r.mbid, acc2, false)
        refine ⟨?_, ?_⟩
        · rw [List.foldl_cons, hstep, ih1, hfilt, List.foldl_cons]
        · rw [List.foldl_cons, hstep, ih2]
          simp [List.any_cons, hnegf]
      · have hstep : batchStep pc nc (acc1, acc2, acc3) r = (acc1, acc2, acc3) := by
          simp [batchStep, hnegf, hval]
        have hfilt : (r :: rest).filter (fun r => ¬r.isNeg ∧ pc ≤ r.cachedAt) =
            rest.filter (fun r => ¬r.isNeg ∧ pc ≤ r.cachedAt) := by
          simp [List.filter_cons, hnegf, hval]
        obtain ⟨ih1, ih2⟩ := ih (acc1, acc2, acc3)
        refine ⟨?_, ?_⟩
        · rw [List.foldl_cons, hstep, ih1, hfilt]
        · rw [List.foldl_cons, hstep, ih2]
          simp [List.any_cons, hnegf]

/-- C10 counterexample.  In a mixed state in which one ISRC has both a
valid negative row and an unexpired positive row, the single lookup
short-circuits on the negative row (empty set) while the batch lookup
prefers the valid positive MBIDs — the two results differ, refuting the
claimed equality "including mixed states". -/
theorem single_vs_batch_mixed_state_cex :
    getCachedMbids 90 7 100
      [⟨"USRC1", "m1", false, 100⟩, ⟨"USRC1", "", true, 100⟩] "USRC1" = some [] ∧
    getCachedMbidsBatchSingle 90 7 100
      [⟨"USRC1", "m1", false, 100⟩, ⟨"USRC1", "", true, 100⟩] "USRC1" =
      some ["m1"] ∧
    some ([] : List String) ≠ some ["m1"] := by
  exact ⟨by decide, by decide, by decide⟩

/-- C10 as amended: for an already-normalized ISRC, the single and the
batch cache lookup agree on every state in which the ISRC does *not*
combine a negative row with unexpired positive rows (and where the
`(isrc, mbid)` primary key guarantees at most one negative row); in the
excluded mixed states the single lookup short-circuits on the negative
row while the batch lookup prefers the valid positive MBIDs. -/
theorem single_batch_cache_lookup_agree
    (posTTL negTTL now : Int) (db : List CacheRow) (isrc : String)
    (hnorm : pyNormIsrc isrc = isrc)
    (hpk : ((rowsFor db isrc).filter (fun r => r.isNeg)).length ≤ 1)
    (hexcl : (∃ r ∈ rowsFor db isrc, r.isNeg = true) →
      ∀ r ∈ rowsFor db isrc, r.isNeg = false → r.cachedAt < now - posTTL) :
    getCachedMbids posTTL negTTL now db isrc =
      getCachedMbidsBatchSingle posTTL negTTL now db isrc := by
  unfold getCachedMbidsBatchSingle
  rw [hnorm]
  by_cases hrows : rowsFor db isrc = []
  · simp [getCachedMbids, hrows]
  · obtain ⟨hs1, hs2⟩ :=
      batchStep_foldl (now - posTTL) (now - negTTL) (rowsFor db isrc) ([], false, true)
    cases hfind : (rowsFor db isrc).find? (fun r => r.isNeg) with
    | none =>
      have hnoneg : ∀ r ∈ rowsFor db isrc, r.isNeg = false := by
        intro r hr
        have := List.find?_eq_none.1 hfind r hr
        simpa using this
      have hany : (rowsFor db isrc).any
          (fun r => r.isNeg ∧ now - negTTL ≤ r.cachedAt) = false := by
        simp only [List.any_eq_false]
        intro r hr
        simp [hnoneg r hr]
      have hscan2 : ((rowsFor db isrc).foldl
          (batchStep (now - posTTL) (now - negTTL)) ([], false, true)).2.1 = false := by
        rw [hs2, hany]
        rfl
      have hscan1 : ((rowsFor db isrc).foldl
          (batchStep (now - posTTL) (now - negTTL)) ([], false, true)).1 =
          ((rowsFor db isrc).filter
            (fun r => ¬r.isNeg ∧ now - posTTL ≤ r.cachedAt)).foldl
            (fun acc r => insertStr acc r.mbid) [] := by
        rw [hs1]
      simp only [getCachedMbids, batchDecide, batchScan]
      rw [if_neg hrows, if_neg hrows, hfind, hscan1, hscan2]
      by_cases hval : ((rowsFor db isrc).filter
          (fun r => ¬r.isNeg ∧ now - posTTL ≤ r.cachedAt)).foldl
          (fun acc r => insertStr acc r.mbid) [] = []
      · simp [hval]
      · simp [hval]
    | some rneg =>
      have hmem : rneg ∈ rowsFor db isrc := List.mem_of_find?_eq_some hfind
      have hneg : rneg.isNeg = true := by
        have := List.find?_some hfind
        simpa using this
      have hfilterpos : (rowsFor db isrc).filter
          (fun r => ¬r.isNeg ∧ now - posTTL ≤ r.cachedAt) = [] := by
        apply List.filter_eq_nil_iff.2
        intro r hr
        by_cases h : r.isNeg = true
        · simp [h]
        · have hf : r.isNeg = false := by simpa using h
          have := hexcl ⟨rneg, hmem, hneg⟩ r hr hf
          simp [hf, not_le.2 this]
      have hscan1 : ((rowsFor db isrc).foldl
          (batchStep (now - posTTL) (now - negTTL)) ([], false, true)).1 = [] := by
        rw [hs1, hfilterpos]
        rfl
      by_cases hval : now - negTTL ≤ rneg.cachedAt
      · have hany : (rowsFor db isrc).any
            (fun r => r.isNeg ∧ now - negTTL ≤ r.cachedAt) = true :=
          List.any_eq_true.2 ⟨rneg, hmem, by simp [hneg, hval]⟩
        have hscan2 : ((rowsFor db isrc).foldl
            (batchStep (now - posTTL) (now - negTTL)) ([], false, true)).2.1 = true := by
          rw [hs2, hany]
          rfl
        simp only [getCachedMbids, batchDecide, batchScan]
        rw [if_neg hrows, if_neg hrows, hfind, hscan1, hscan2]
        simp [hval]
      · have hany : (rowsFor db isrc).any
            (fun r => r.isNeg ∧ now - negTTL ≤ r.cachedAt) = false := by
          simp only [List.any_eq_false]
          intro r hr
          by_cases h : r.isNeg = true
          · have hrmem : r ∈ (rowsFor db isrc).filter (fun r => r.isNeg) :=
              List.mem_filter.2 ⟨hr, by simp [h]⟩
            have hnmem : rneg ∈ (rowsFor db isrc).filter (fun r => r.isNeg) :=
              List.mem_filter.2 ⟨hmem, by simp [hneg]⟩
            have : r = rneg := by
              rcases hx : (rowsFor db isrc).filter (fun r => r.isNeg) with _ | ⟨x, xs⟩
              · rw [hx] at hrmem; exact absurd hrmem (List.not_mem_nil r)
              · rw [hx] at hpk hrmem hnmem
                cases xs with
                | nil =>
                  have h1 := List.mem_singleton.1 hrmem
                  have h2 := List.mem_singleton.1 hnmem
                  rw [h1, h2]
                | cons y ys => simp at hpk
            rw [this]
            simp [hval]
          · simp [show r.isNeg = false by simpa using h]
        have hscan2 : ((rowsFor db isrc).foldl
            (batchStep (now - posTTL) (now - negTTL)) ([], false, true)).2.1 = false := by
          rw [hs2, hany]
          rfl
        simp only [getCachedMbids, batchDecide, batchScan]
        rw [if_neg hrows, if_neg hrows, hfind, hscan1, hscan2]
        simp [hval]

/-- Witness for the amended C10: a pure positive state and a pure negative
state where the two lookups agree. -/
theorem single_batch_cache_lookup_agree_witness :
    getCachedMbids 90 7 100 [⟨"USRC1", "m1", false, 50⟩] "USRC1" =
      getCachedMbidsBatchSingle 90 7 100 [⟨"USRC1", "m1", false, 50⟩] "USRC1" ∧
    getCachedMbids 90 7 100 [⟨"USRC2", "", true, 96⟩] "USRC2" =
      getCachedMbidsBatchSingle 90 7 100 [⟨"USRC2", "", true, 96⟩] "USRC2" := by
  constructor
  · exact single_batch_cache_lookup_agree 90 7 100 [⟨"USRC1", "m1", false, 50⟩]
      "USRC1" (by decide) (by decide)
      (fun h => absurd h (by decide))
  · exact single_batch_cache_lookup_agree 90 7 100 [⟨"USRC2", "", true, 96⟩]
      "USRC2" (by decide) (by decide)
      (fun _ r hr hf => by
        have : r = ⟨"USRC2", "", true, 96⟩ := by
          have := List.mem_singleton.1 hr
          exact this
        rw [this] at hf
        simp at hf)



/-! ## Claim C7: liked-track revocation -/

theorem mem_foldl_pyInsert {α : Type} [DecidableEq α] :
    ∀ (l acc : List α) (x : α),
      x ∈ l.foldl pyInsert acc ↔ x ∈ acc ∨ x ∈ l := by
  intro l
  induction l with
  | nil => simp
  | cons a l ih =>
    intro acc x
    rw [List.foldl_cons, ih]
    rw [mem_pyInsert]
    constructor
    · rintro ((hx | rfl) | hx)
      · exact Or.inl hx
      · exact Or.inr (List.mem_cons_self ..)
      · exact Or.inr (List.mem_cons_of_mem _ hx)
    · rintro (hx | hx)
      · exact Or.inl (Or.inl hx)
      · rcases List.mem_cons.1 hx with rfl | hx
        · exact Or.inl (Or.inr rfl)
        · exact Or.inr hx

theorem mem_getPreviouslySynced {recs : List LikedRec} {source : String}
    {r : LikedRec} (hr : r ∈ recs) (hs : r.source = source) :
    r.plexId ∈ getPreviouslySynced recs source := by
  unfold getPreviouslySynced
  rw [mem_foldl_pyInsert]
  exact Or.inr (List.mem_map.2 ⟨r, List.mem_filter.2 ⟨hr, by simp [hs]⟩, rfl⟩)

/-- The write log of one phase-1 step: unchanged, or extended by a
5-star write for a plex id that was not previously synced. -/
theorem processTrack_writes_cases (o : SyncOracles) (source : String)
    (prev : List Nat) (st : SyncState) (t : Track) :
    (processTrack o source prev st t).writes = st.writes ∨
    ∃ pid, pid ∉ prev ∧
      (processTrack o source prev st t).writes = st.writes ++ [(pid, 10)] := by
  unfold processTrack
  cases o.matcher t with
  | none => exact Or.inl rfl
  | some it =>
    by_cases hpid : it.ratingKey ∈ prev
    · exact Or.inl (by simp [hpid])
    · by_cases hrate : o.rateOk it.ratingKey 10 = true
      · exact Or.inr ⟨it.ratingKey, hpid, by simp [hpid, hrate]⟩
      · exact Or.inr ⟨it.ratingKey, hpid, by simp [hpid, hrate]⟩

/-- Phase 1 keeps every record whose plex id is previously synced. -/
theorem processTrack_foldl_keeps (o : SyncOracles) (source : String)
    (prev : List Nat) (l : List Track) :
    ∀ (st : SyncState) (r : LikedRec), r ∈ st.recs → r.plexId ∈ prev →
      r ∈ (l.foldl (processTrack o source prev) st).recs := by
  induction l with
  | nil => intro st r hr _; exact hr
  | cons t l ih =>
    intro st r hr hp
    rw [List.foldl_cons]
    apply ih _ _ _ hp
    unfold processTrack
    cases o.matcher t with
    | none => exact hr
    | some it =>
      by_cases hpid : it.ratingKey ∈ prev
      · simp only [if_pos hpid]
        exact hr
      · simp only [if_neg hpid]
        by_cases hrate : o.rateOk it.ratingKey 10 = true
        · simp only [hrate, if_true]
          unfold upsertLiked
          refine List.mem_append.2 (Or.inl (List.mem_filter.2 ⟨hr, ?_⟩))
          have : r.plexId ≠ it.ratingKey := fun h => hpid (h ▸ hp)
          simp [this]
        · simp only [hrate, if_false]
          exact hr

/-- Every rating write of phase 1 is for a plex id that was not
previously synced. -/
theorem processTrack_foldl_writes (o : SyncOracles) (source : String)
    (prev : List Nat) (l : List Track) :
    ∀ (st : SyncState) (w : Nat × ℚ),
      w ∈ (l.foldl (processTrack o source prev) st).writes →
      w ∈ st.writes ∨ w.1 ∉ prev := by
  induction l with
  | nil => intro st w hw; exact Or.inl hw
  | cons t l ih =>
    intro st w hw
    rw [List.foldl_cons] at hw
    rcases ih _ w hw with hw' | hnp
    · rcases processTrack_writes_cases o source prev st t with hc | ⟨pid, hpid, hc⟩
      · rw [hc] at hw'
        exact Or.inl hw'
      · rw [hc] at hw'
        rcases List.mem_append.1 hw' with hw'' | hw''
        · exact Or.inl hw''
        · have : w = (pid, (10 : ℚ)) := List.mem_singleton.1 hw''
          exact Or.inr (by rw [this]; exact hpid)
    · exact Or.inr hnp

/-- Phase 2 does not change `current_liked_plex_ids`. -/
theorem unrate_foldl_currentLiked (o : SyncOracles) (source : String)
    (l : List Nat) :
    ∀ st : SyncState,
      (l.foldl (unrateStep o source) st).currentLiked = st.currentLiked := by
  induction l with
  | nil => intro st; rfl
  | cons pid l ih =>
    intro st
    rw [List.foldl_cons, ih]
    unfold unrateStep
    cases o.fetchLiked pid with
    | error => rfl
    | notFound => rfl
    | found it =>
      by_cases h : o.rateOk pid 0 = true
      · simp [h]
      · simp [h]

/-- The write log of one phase-2 step: unchanged or extended by the
zero-rating write for the processed plex id. -/
theorem unrateStep_writes_cases (o : SyncOracles) (source : String)
    (st : SyncState) (pid : Nat) :
    (unrateStep o source st pid).writes = st.writes ∨
    (unrateStep o source st pid).writes = st.writes ++ [(pid, 0)] := by
  unfold unrateStep
  cases o.fetchLiked pid with
  | error => exact Or.inl rfl
  | notFound => exact Or.inl rfl
  | found it =>
    by_cases h : o.rateOk pid 0 = true
    · exact Or.inr (by simp [h])
    · exact Or.inr (by simp [h])

/-- The record table of one phase-2 step: unchanged or with the processed
key removed. -/
theorem unrateStep_recs_cases (o : SyncOracles) (source : String)
    (st : SyncState) (pid : Nat) :
    (unrateStep o source st pid).recs = st.recs ∨
    (unrateStep o source st pid).recs = removeLiked st.recs pid source := by
  unfold unrateStep
  cases o.fetchLiked pid with
  | error => exact Or.inl rfl
  | notFound => exact Or.inr rfl
  | found it =>
    by_cases h : o.rateOk pid 0 = true
    · exact Or.inr (by simp [h])
    · exact Or.inl (by simp [h])

/-- A phase-2 step on a not-found or successfully zero-rated plex id
removes the record key. -/
theorem unrateStep_removes_of (o : SyncOracles) (source : String)
    (st : SyncState) (pid : Nat)
    (hcond : o.fetchLiked pid = FetchOut.notFound ∨
      ((∃ it, o.fetchLiked pid = FetchOut.found it) ∧ o.rateOk pid 0 = true)) :
    (unrateStep o source st pid).recs = removeLiked st.recs pid source := by
  unfold unrateStep
  rcases hcond with hnf | ⟨⟨it, hf⟩, hrate⟩
  · rw [hnf]
  · rw [hf]
    simp only [hrate, if_true]

/-- A phase-2 step whose fetch succeeds appends the zero-rating write. -/
theorem unrateStep_zero_write_of (o : SyncOracles) (source : String)
    (st : SyncState) (pid : Nat)
    (hfound : ∃ it, o.fetchLiked pid = FetchOut.found it) :
    (unrateStep o source st pid).writes = st.writes ++ [(pid, 0)] := by
  obtain ⟨it, hf⟩ := hfound
  unfold unrateStep
  rw [hf]
  by_cases h : o.rateOk pid 0 = true
  · simp [h]
  · simp [h]

/-- Phase 2 only ever appends to the write log. -/
theorem unrate_foldl_writes_mono (o : SyncOracles) (source : String)
    (l : List Nat) :
    ∀ (st : SyncState) (w : Nat × ℚ), w ∈ st.writes →
      w ∈ (l.foldl (unrateStep o source) st).writes := by
  induction l with
  | nil => intro st w hw; exact hw
  | cons pid l ih =>
    intro st w hw
    rw [List.foldl_cons]
    apply ih
    rcases unrateStep_writes_cases o source st pid with hc | hc
    · rw [hc]; exact hw
    · rw [hc]; exact List.mem_append.2 (Or.inl hw)

/-- Every rating write of phase 2 is for a leftover plex id. -/
theorem unrate_foldl_writes_provenance (o : SyncOracles) (source : String)
    (l : List Nat) :
    ∀ (st : SyncState) (w : Nat × ℚ),
      w ∈ (l.foldl (unrateStep o source) st).writes →
      w ∈ st.writes ∨ w.1 ∈ l := by
  induction l with
  | nil => intro st w hw; exact Or.inl hw
  | cons pid l ih =>
    intro st w hw
    rw [List.foldl_cons] at hw
    rcases ih _ w hw with hw' | hl
    · rcases unrateStep_writes_cases o source st pid with hc | hc
      · rw [hc] at hw'
        exact Or.inl hw'
      · rw [hc] at hw'
        rcases List.mem_append.1 hw' with hw'' | hw''
        · exact Or.inl hw''
        · have : w = (pid, (0 : ℚ)) := List.mem_singleton.1 hw''
          exact Or.inr (by rw [this]; exact List.mem_cons_self ..)
    · exact Or.inr (List.mem_cons_of_mem _ hl)

/-- Each phase-2 step only filters the record table. -/
theorem unrateStep_recs_subset (o : SyncOracles) (source : String)
    (st : SyncState) (pid : Nat) :
    ∀ r ∈ (unrateStep o source st pid).recs, r ∈ st.recs := by
  intro r hr
  rcases unrateStep_recs_cases o source st pid with hc | hc
  · rw [hc] at hr; exact hr
  · rw [hc] at hr
    exact (List.mem_filter.1 hr).1

/-- A record key absent from the table stays absent through phase 2. -/
theorem unrate_foldl_stays_removed (o : SyncOracles) (source : String)
    (l : List Nat) :
    ∀ (st : SyncState) (pid : Nat),
      (∀ r ∈ st.recs, ¬(r.plexId = pid ∧ r.source = source)) →
      ∀ r ∈ (l.foldl (unrateStep o source) st).recs,
        ¬(r.plexId = pid ∧ r.source = source) := by
  induction l with
  | nil => intro st pid h; exact h
  | cons q l ih =>
    intro st pid h
    rw [List.foldl_cons]
    apply ih
    intro r hr
    exact h r (unrateStep_recs_subset o source st q r hr)

/-- Phase 2 deletes the record of every leftover plex id whose fetch
reports not-found or whose fetch succeeds and whose zero-rating write
succeeds. -/
theorem unrate_foldl_removes (o : SyncOracles) (source : String)
    (l : List Nat) :
    ∀ (st : SyncState) (pid : Nat), pid ∈ l →
      (o.fetchLiked pid = FetchOut.notFound ∨
        ((∃ it, o.fetchLiked pid = FetchOut.found it) ∧ o.rateOk pid 0 = true)) →
      ∀ r ∈ (l.foldl (unrateStep o source) st).recs,
        ¬(r.plexId = pid ∧ r.source = source) := by
  induction l with
  | nil => intro st pid hmem; exact absurd hmem (List.not_mem_nil pid)
  | cons q l ih =>
    intro st pid hmem hcond
    rcases List.mem_cons.1 hmem with rfl | hmem'
    · rw [List.foldl_cons]
      apply unrate_foldl_stays_removed
      intro r hr
      rw [unrateStep_removes_of o source st pid hcond] at hr
      intro hk
      have hthis := (List.mem_filter.1 hr).2
      simp [hk.1, hk.2] at hthis
    · rw [List.foldl_cons]
      exact ih _ pid hmem' hcond

/-- Phase 2 appends the zero-rating write of every leftover plex id whose
fetch succeeds. -/
theorem unrate_foldl_zero_write (o : SyncOracles) (source : String)
    (l : List Nat) :
    ∀ (st : SyncState) (pid : Nat), pid ∈ l →
      (∃ it, o.fetchLiked pid = FetchOut.found it) →
      (pid, (0 : ℚ)) ∈ (l.foldl (unrateStep o source) st).writes := by
  induction l with
  | nil => intro st pid hmem; exact absurd hmem (List.not_mem_nil pid)
  | cons q l ih =>
    intro st pid hmem hfound
    rcases List.mem_cons.1 hmem with rfl | hmem'
    · rw [List.foldl_cons]
      apply unrate_foldl_writes_mono
      rw [unrateStep_zero_write_of o source st pid hfound]
      exact List.mem_append.2 (Or.inr (List.mem_singleton.2 rfl))
    · rw [List.foldl_cons]
      exact ih _ pid hmem' hfound

/-- Phase 2 does not touch records whose plex id is not a leftover. -/
theorem unrate_foldl_keeps_other (o : SyncOracles) (source : String)
    (l : List Nat) :
    ∀ (st : SyncState) (r : LikedRec), r ∈ st.recs → r.plexId ∉ l →
      r ∈ (l.foldl (unrateStep o source) st).recs := by
  induction l with
  | nil => intro st r hr _; exact hr
  | cons q l ih =>
    intro st r hr hnl
    rw [List.foldl_cons]
    refine ih _ r ?_ (fun h => hnl (List.mem_cons_of_mem _ h))
    have hq : r.plexId ≠ q := fun h => hnl (h ▸ List.mem_cons_self ..)
    rcases unrateStep_recs_cases o source st q with hc | hc
    · rw [hc]; exact hr
    · rw [hc]
      exact List.mem_filter.2 ⟨hr, by simp [hq]⟩

/-- C7 counterexample.  With `previously_synced = {101}` and an *empty*
liked-track list, `sync_liked_tracks_to_plex` returns at once: plex id
101 is in `P ∖ C` but its record survives and no zero-rating write is
attempted — refuting the claim for every run. -/
theorem empty_liked_list_skips_revocation_cex :
    getPreviouslySynced [likedRec101] "spotify" = [101] ∧
    (syncLikedTracksToPlex emptySyncOracles [] "spotify" [likedRec101]).recs =
      [likedRec101] ∧
    (syncLikedTracksToPlex emptySyncOracles [] "spotify" [likedRec101]).writes =
      [] ∧
    (syncLikedTracksToPlex emptySyncOracles [] "spotify"
      [likedRec101]).currentLiked = [] := by
  exact ⟨by decide, rfl, rfl, rfl⟩

/-- C7 as amended: *provided the current liked list is non-empty* (an
empty list short-circuits the sync and revokes nothing), with
`P = previously synced` and `C = currently matched`: every `pid ∈ P ∖ C`
gets a zero-rating write when its fetch succeeds, and its
`LikedTrackRecord` is deleted when the fetch reports not-found (treated
as success) or when the fetch and the rating write succeed; and no record
of a `pid ∈ P ∩ C` is modified or deleted, with no rating write for it at
all. -/
theorem liked_sync_revocation (o : SyncOracles) (likedTracks : List Track)
    (source : String) (recs : List LikedRec)
    (hne : likedTracks ≠ []) :
    (∀ pid ∈ getPreviouslySynced recs source,
      pid ∉ (syncLikedTracksToPlex o likedTracks source recs).currentLiked →
      ((∃ it, o.fetchLiked pid = FetchOut.found it) →
        (pid, (0 : ℚ)) ∈ (syncLikedTracksToPlex o likedTracks source recs).writes) ∧
      ((o.fetchLiked pid = FetchOut.notFound ∨
          ((∃ it, o.fetchLiked pid = FetchOut.found it) ∧ o.rateOk pid 0 = true)) →
        ∀ r ∈ (syncLikedTracksToPlex o likedTracks source recs).recs,
          ¬(r.plexId = pid ∧ r.source = source))) ∧
    (∀ pid ∈ getPreviouslySynced recs source,
      pid ∈ (syncLikedTracksToPlex o likedTracks source recs).currentLiked →
      (∀ r ∈ recs, r.plexId = pid → r.source = source →
        r ∈ (syncLikedTracksToPlex o likedTracks source recs).recs) ∧
      (∀ q : ℚ, (pid, q) ∉ (syncLikedTracksToPlex o likedTracks source recs).writes)) := by
  have hsync : syncLikedTracksToPlex o likedTracks source recs =
      ((getPreviouslySynced recs source).filter
        (fun pid => pid ∉ (likedTracks.foldl
          (processTrack o source (getPreviouslySynced recs source))
          ⟨recs, [], []⟩).currentLiked)).foldl (unrateStep o source)
        (likedTracks.foldl
          (processTrack o source (getPreviouslySynced recs source))
          ⟨recs, [], []⟩) := by
    unfold syncLikedTracksToPlex
    rw [if_neg hne]
  have hcur : (syncLikedTracksToPlex o likedTracks source recs).currentLiked =
      (likedTracks.foldl
        (processTrack o source (getPreviouslySynced recs source))
        ⟨recs, [], []⟩).currentLiked := by
    rw [hsync]
    exact unrate_foldl_currentLiked o source _ _
  constructor
  · intro pid hp hnc
    have hnc1 : pid ∉ (likedTracks.foldl
        (processTrack o source (getPreviouslySynced recs source))
        ⟨recs, [], []⟩).currentLiked := by
      rw [hcur] at hnc
      exact hnc
    have hto : pid ∈ (getPreviouslySynced recs source).filter
        (fun pid => pid ∉ (likedTracks.foldl
          (processTrack o source (getPreviouslySynced recs source))
          ⟨recs, [], []⟩).currentLiked) :=
      List.mem_filter.2 ⟨hp, by simpa using hnc1⟩
    constructor
    · intro hfound
      rw [hsync]
      exact unrate_foldl_zero_write o source _ _ pid hto hfound
    · intro hcond
      rw [hsync]
      exact unrate_foldl_removes o source _ _ pid hto hcond
  · intro pid hp hc
    have hc1 : pid ∈ (likedTracks.foldl
        (processTrack o source (getPreviouslySynced recs source))
        ⟨recs, [], []⟩).currentLiked := by
      rw [hcur] at hc
      exact hc
    constructor
    · intro r hr hrpid hrsource
      have hst1 : r ∈ (likedTracks.foldl
          (processTrack o source (getPreviouslySynced recs source))
          ⟨recs, [], []⟩).recs :=
        processTrack_foldl_keeps o source _ likedTracks ⟨recs, [], []⟩ r hr
          (by rw [hrpid]; exact hp)
      rw [hsync]
      refine unrate_foldl_keeps_other o source _ _ r hst1 ?_
      intro hmem
      have := List.mem_filter.1 hmem |>.2
      rw [hrpid] at this
      simp [hc1] at this
    · intro q hq
      rw [hsync] at hq
      rcases unrate_foldl_writes_provenance o source _ _ (pid, q) hq with hw | hw
      · rcases processTrack_foldl_writes o source _ likedTracks _ (pid, q) hw with
          hw' | hw'
        · exact absurd hw' (List.not_mem_nil _)
        · exact hw' hp
      · have := List.mem_filter.1 hw |>.2
        simp [hc1] at this

/-- Witness for the amended C7 at the spec's scenario
(`previously_synced = {101, 102}`, `currently_liked = {101}`): 102 is
zero-rated and its record removed, while 101's record survives with no
rating write. -/
theorem liked_sync_revocation_witness :
    (102, (0 : ℚ)) ∈ (syncLikedTracksToPlex revocationOracles [likedTrackL1]
      "spotify" [likedRec101, likedRec102]).writes ∧
    (∀ r ∈ (syncLikedTracksToPlex revocationOracles [likedTrackL1]
        "spotify" [likedRec101, likedRec102]).recs,
      ¬(r.plexId = 102 ∧ r.source = "spotify")) ∧
    likedRec101 ∈ (syncLikedTracksToPlex revocationOracles [likedTrackL1]
      "spotify" [likedRec101, likedRec102]).recs ∧
    (∀ q : ℚ, (101, q) ∉ (syncLikedTracksToPlex revocationOracles [likedTrackL1]
      "spotify" [likedRec101, likedRec102]).writes) := by
  have h := liked_sync_revocation revocationOracles [likedTrackL1] "spotify"
    [likedRec101, likedRec102] (by simp)
  have h102 := h.1 102 (by decide) (by decide)
  have h101 := h.2 101 (by decide) (by decide)
  refine ⟨?_, ?_, ?_, h101.2⟩
  · exact h102.1 ⟨_, rfl⟩
  · exact h102.2 (Or.inr ⟨⟨_, rfl⟩, rfl⟩)
  · exact h101.1 likedRec101 (List.mem_cons_self ..) rfl rfl

end Plexist
